import Mathlib

/-!
Shallow embedding of the dual-backend project/task data-access layer of the
mpp-org repository: the demo/localStorage variant (src/src/services/taskService.ts,
src/src/utils/typeCompatibility.ts), the managed-backend variant with row-level
security (schema/policy file src/unnamed/part_000), and the raw SQL-Server
variant (src/src/services/projectService.ts).  Dates and timestamps are
modelled as integers (the sources compare ISO strings / SQL DATE values, both
totally ordered); JSON payloads are modelled as key-value lists.
-/

namespace Mpp

/-- Task status, from the union type of the Task shape in taskService.ts. -/
inductive TaskStatus
  | notStarted
  | inProgress
  | completed
  | onHold
  | impacted
  | onGoing
  | devInProgress
  | done
deriving DecidableEq, Repr

/-- Task type union from taskService.ts. -/
inductive TaskType
  | task
  | milestone
  | deliverable
deriving DecidableEq, Repr

/-- Project status union from typeCompatibility.ts. -/
inductive ProjectStatus
  | active
  | completed
  | archived
deriving DecidableEq, Repr

/-- JavaScript `v || d` on an optional string: the empty string is falsy. -/
def jsOrStr (v : Option String) (d : String) : String :=
  match v with
  | some s => if s = "" then d else s
  | none => d

/-- JavaScript `v || null` / `v || undefined` on an optional string. -/
def jsStrOrNone (v : Option String) : Option String :=
  match v with
  | some s => if s = "" then none else some s
  | none => none

/-- The Task shape of taskService.ts (also the rows of public.tasks). -/
structure Task where
  id : String
  project_id : String
  name : String
  description : Option String
  task_type : TaskType
  status : TaskStatus
  start_date : Int
  end_date : Int
  assignee : Option String
  progress : Int
  dependencies : List String
  custom_fields : List (String × String)
  created_at : Int
  updated_at : Int
deriving DecidableEq, Repr

/-- The CustomField shape (rows of public.custom_fields). -/
structure CustomField where
  id : String
  project_id : String
  name : String
  field_type : String
  required : Bool
  options : List String
  default_value : Option String
deriving DecidableEq, Repr

/-- A demo-mode project (the ProjectDetail shape of typeCompatibility.ts,
each project embedding its tasks and custom fields).  `lastModifiedCamel`
models the separate camelCase `lastModified` key that taskService.createTask
sets on demo project objects (distinct from the snake_case `last_modified`). -/
structure Project where
  id : String
  name : String
  description : Option String
  status : ProjectStatus
  created_at : Int
  last_modified : Int
  created_by : String
  team_members : List String
  tasks : List Task
  custom_fields : List CustomField
  lastModifiedCamel : Option Int
deriving DecidableEq, Repr

/-- A demo-mode activity log entry (also the rows of public.activity_log). -/
structure ActivityEntry where
  id : String
  project_id : String
  task_id : Option String
  user_id : Option String
  action : String
  changes : List (String × String)
  created_at : Int
deriving DecidableEq, Repr

/-- The demo/localStorage state: the serialized project collection under
DEMO_PROJECTS_KEY and the serialized activity list under DEMO_ACTIVITY_LOG_KEY. -/
structure DemoState where
  projects : List Project
  activity : List ActivityEntry
deriving DecidableEq, Repr

/-- Partial task input (TypeScript `Partial<TaskInsert>`): every field optional. -/
structure TaskInsertInput where
  project_id : Option String
  name : Option String
  description : Option String
  task_type : Option TaskType
  status : Option TaskStatus
  start_date : Option Int
  end_date : Option Int
  assignee : Option String
  progress : Option Int
  dependencies : Option (List String)
  custom_fields : Option (List (String × String))
deriving DecidableEq, Repr

/-- Partial task update (TypeScript `TaskUpdate`): optional fields merged
over the stored task by object spread. -/
structure TaskUpdate where
  name : Option String := none
  description : Option (Option String) := none
  task_type : Option TaskType := none
  status : Option TaskStatus := none
  start_date : Option Int := none
  end_date : Option Int := none
  assignee : Option (Option String) := none
  progress : Option Int := none
  dependencies : Option (List String) := none
  custom_fields : Option (List (String × String)) := none
deriving DecidableEq, Repr

/-- The merge `\x7b ...old, ...updates, updated_at: now \x7d` of
taskService.updateTask (demo branch): present update fields win, and
updated_at is always refreshed. -/
def applyTaskUpdate (t : Task) (u : TaskUpdate) (now : Int) : Task :=
  { t with
    name := u.name.getD t.name
    description := u.description.getD t.description
    task_type := u.task_type.getD t.task_type
    status := u.status.getD t.status
    start_date := u.start_date.getD t.start_date
    end_date := u.end_date.getD t.end_date
    assignee := u.assignee.getD t.assignee
    progress := u.progress.getD t.progress
    dependencies := u.dependencies.getD t.dependencies
    custom_fields := u.custom_fields.getD t.custom_fields
    updated_at := now }

/-- The new demo task built by taskService.createTask, with the source's
JavaScript defaults (`||` fallbacks; absent dates default to `now`). -/
def buildDemoTask (input : TaskInsertInput) (pid : String) (now : Int) (freshId : String) : Task :=
  { id := freshId
    project_id := pid
    name := jsOrStr input.name "Untitled Task"
    description := jsStrOrNone input.description
    task_type := input.task_type.getD TaskType.task
    status := input.status.getD TaskStatus.notStarted
    start_date := input.start_date.getD now
    end_date := input.end_date.getD now
    assignee := jsStrOrNone input.assignee
    progress := input.progress.getD 0
    dependencies := input.dependencies.getD []
    custom_fields := input.custom_fields.getD []
    created_at := now
    updated_at := now }

/-- `findIndex` on projects followed by pushing the new task and setting the
camelCase lastModified key: only the first project whose id matches is
modified; `none` models findIndex returning -1. -/
def insertTaskFirstMatch (pid : String) (t : Task) (now : Int) : List Project → Option (List Project)
  | [] => none
  | p :: ps =>
    if p.id == pid then
      some ({ p with tasks := p.tasks ++ [t], lastModifiedCamel := some now } :: ps)
    else
      match insertTaskFirstMatch pid t now ps with
      | some rest => some (p :: rest)
      | none => none

/-- taskService.createTask, demo branch: find the project by the input's
project_id (an absent project_id never matches, so findIndex yields -1 and
the call throws "Project not found"); on success push the built task. -/
def demoCreateTask (input : TaskInsertInput) (s : DemoState) (now : Int) (freshId : String) :
    Except String (Task × DemoState) :=
  match input.project_id with
  | none => Except.error "Project not found"
  | some pid =>
    let t := buildDemoTask input pid now freshId
    match insertTaskFirstMatch pid t now s.projects with
    | some ps => Except.ok (t, { s with projects := ps })
    | none => Except.error "Project not found"

/-- `findIndex` on a project's tasks followed by in-place replacement with the
merged task: only the first task whose id matches is replaced. -/
def updateTaskFirstMatch (tid : String) (u : TaskUpdate) (now : Int) :
    List Task → Option (Task × List Task)
  | [] => none
  | t :: ts =>
    if t.id == tid then
      let t' := applyTaskUpdate t u now
      some (t', t' :: ts)
    else
      match updateTaskFirstMatch tid u now ts with
      | some (t', rest) => some (t', t :: rest)
      | none => none

/-- Project-level search of taskService.updateTask (demo branch): find the
first project whose id matches, then update its first matching task; if that
project lacks the task the call fails (the source throws without scanning
further projects). -/
def demoUpdateTaskInProjects (tid pid : String) (u : TaskUpdate) (now : Int) :
    List Project → Option (Task × List Project)
  | [] => none
  | p :: ps =>
    if p.id == pid then
      match updateTaskFirstMatch tid u now p.tasks with
      | some (t', ts) => some (t', { p with tasks := ts } :: ps)
      | none => none
    else
      match demoUpdateTaskInProjects tid pid u now ps with
      | some (t', rest) => some (t', p :: rest)
      | none => none

/-- taskService.updateTask, demo branch. -/
def demoUpdateTask (tid pid : String) (u : TaskUpdate) (s : DemoState) (now : Int) :
    Except String (Task × DemoState) :=
  match demoUpdateTaskInProjects tid pid u now s.projects with
  | some (t', ps) => Except.ok (t', { s with projects := ps })
  | none => Except.error "Task not found"

/-- The lookup updateTaskProgress performs before deriving the status:
`demoProjects.find(p => p.id === projectId)` then `.tasks.find(t => t.id === id)`. -/
def demoFindTask (pid tid : String) (s : DemoState) : Option Task :=
  match s.projects.find? (fun p => p.id == pid) with
  | none => none
  | some p => p.tasks.find? (fun t => t.id == tid)

/-- The progress-driven status derivation of taskService.updateTaskProgress,
in the source's order: progress <= 0, then progress >= 100, then whether the
prior status is not-started or completed, else unchanged. -/
def deriveProgressStatus (prior : TaskStatus) (progress : Int) : TaskStatus :=
  if progress ≤ 0 then TaskStatus.notStarted
  else if progress ≥ 100 then TaskStatus.completed
  else if prior = TaskStatus.notStarted ∨ prior = TaskStatus.completed then TaskStatus.inProgress
  else prior

/-- The updates object built by updateTaskProgress: always the new progress,
plus the status only when it changed. -/
def progressUpdates (prior : TaskStatus) (progress : Int) : TaskUpdate :=
  let newStatus := deriveProgressStatus prior progress
  { progress := some progress
    status := if newStatus = prior then none else some newStatus }

/-- taskService.updateTaskProgress, demo branch: find the task, derive the
status, then apply both changes through updateTask. -/
def demoUpdateTaskProgress (tid pid : String) (progress : Int) (s : DemoState) (now : Int) :
    Except String (Task × DemoState) :=
  match demoFindTask pid tid s with
  | none => Except.error "Task not found"
  | some t => demoUpdateTask tid pid (progressUpdates t.status progress) s now

/-- taskService.deleteTask, demo branch: find the first project whose id
matches; remove its tasks with the given id; fail (throw "Task not found")
when no project matches or the filter removed nothing. -/
def deleteTaskFirstProject (tid pid : String) : List Project → Option (List Project)
  | [] => none
  | p :: ps =>
    if p.id == pid then
      if p.tasks.any (fun t => t.id == tid) then
        some ({ p with tasks := p.tasks.filter (fun t => t.id != tid) } :: ps)
      else none
    else
      match deleteTaskFirstProject tid pid ps with
      | some rest => some (p :: rest)
      | none => none

/-- taskService.deleteTask, demo branch. -/
def demoDeleteTask (tid pid : String) (s : DemoState) : Except String DemoState :=
  match deleteTaskFirstProject tid pid s.projects with
  | some ps => Except.ok { s with projects := ps }
  | none => Except.error "Task not found"

/-- Whether a bulk-imported spec can be created against the current demo
state: it carries a project_id and that project exists. -/
def demoImportOk (s : DemoState) (input : TaskInsertInput) : Bool :=
  match input.project_id with
  | some pid => s.projects.any (fun p => p.id == pid)
  | none => false

/-- taskService.importTasks, demo branch: best-effort loop.  Specs without a
project_id are skipped; a failing createTask is caught and skipped; the
result collects exactly the successfully created tasks.  `idGen k` models the
k-th call to generateId (ids are generated only on the success path). -/
def demoImportTasks (idGen : Nat → String) (now : Int) :
    List TaskInsertInput → DemoState → Nat → List Task × DemoState
  | [], s, _ => ([], s)
  | input :: rest, s, k =>
    match input.project_id with
    | none => demoImportTasks idGen now rest s k
    | some _ =>
      match demoCreateTask input s now (idGen k) with
      | Except.ok (t, s1) =>
        let r := demoImportTasks idGen now rest s1 (k + 1)
        (t :: r.1, r.2)
      | Except.error _ => demoImportTasks idGen now rest s k

/-- typeCompatibility.ts ProjectService.createProject input (ProjectInsert);
tasks and custom_fields of the input are discarded by the demo branch. -/
structure ProjectInsertInput where
  name : String
  description : Option String
  status : Option ProjectStatus
  team_members : Option (List String)
deriving DecidableEq, Repr

/-- An activity entry as built by typeCompatibility.ts logActivity (demo
branch always acts as user "demo_user"). -/
def demoLogEntry (flid pid : String) (tid : Option String) (uid act : String)
    (chg : List (String × String)) (now : Int) : ActivityEntry :=
  { id := flid
    project_id := pid
    task_id := tid
    user_id := some uid
    action := act
    changes := chg
    created_at := now }

/-- typeCompatibility.ts ProjectService.createProject, demo branch: push the
new project (with empty tasks and custom fields) and unshift exactly one
"project_created" activity entry. -/
def demoCreateProject (input : ProjectInsertInput) (s : DemoState) (now : Int)
    (freshId freshLogId : String) : Project × DemoState :=
  let p : Project :=
    { id := freshId
      name := input.name
      description := some (jsOrStr input.description "")
      status := input.status.getD ProjectStatus.active
      created_at := now
      last_modified := now
      created_by := "demo_user"
      team_members := input.team_members.getD []
      tasks := []
      custom_fields := []
      lastModifiedCamel := none }
  let e := demoLogEntry freshLogId freshId none "demo_user" "project_created"
    [("project_name", input.name)] now
  (p, { projects := s.projects ++ [p], activity := e :: s.activity })

/-- typeCompatibility.ts ProjectService.deleteProject, demo branch: filter the
project out; only when something was actually removed, save and log one
"project_deleted" entry; otherwise return with the state untouched (no error). -/
def demoDeleteProject (pid : String) (s : DemoState) (now : Int) (freshLogId : String) :
    DemoState :=
  if s.projects.any (fun p => p.id == pid) then
    { projects := s.projects.filter (fun p => p.id != pid)
      activity := demoLogEntry freshLogId pid none "demo_user" "project_deleted"
        [("project_id", pid)] now :: s.activity }
  else s

/-- taskService.getTaskDependencies, demo branch: scan all projects for the
task, then keep the tasks of that same project whose id occurs in the
dependency list (ids that resolve to no task are silently dropped). -/
def findTaskProject (taskId : String) : List Project → Option (Project × Task)
  | [] => none
  | p :: ps =>
    match p.tasks.find? (fun t => t.id == taskId) with
    | some t => some (p, t)
    | none => findTaskProject taskId ps

/-- taskService.getTaskDependencies, demo branch. -/
def getTaskDependencies (projects : List Project) (taskId : String) : List Task :=
  match findTaskProject taskId projects with
  | none => []
  | some (p, t) =>
    if t.dependencies.isEmpty then []
    else p.tasks.filter (fun x => t.dependencies.contains x.id)

/-- taskService.canStartTask: true when the resolved dependency list is empty,
else every resolved dependency must be completed (or the synonym done). -/
def canStartTask (projects : List Project) (taskId : String) : Bool :=
  let deps := getTaskDependencies projects taskId
  if deps.isEmpty then true
  else deps.all (fun d => d.status == TaskStatus.completed || d.status == TaskStatus.done)

/-! ## Managed-backend model: schema rows, RLS policies, cascades -/

/-- A row of public.projects (created_by is nullable: ON DELETE SET NULL). -/
structure ProjectRow where
  id : String
  name : String
  description : Option String
  status : ProjectStatus
  created_date : Int
  last_modified : Int
  created_by : Option String
  team_members : List String
deriving DecidableEq, Repr

/-- The managed-backend database: the projects, tasks and activity_log tables
(task rows share the Task shape; activity rows share the ActivityEntry shape). -/
structure SupaDb where
  projects : List ProjectRow
  tasks : List Task
  activity : List ActivityEntry
deriving DecidableEq, Repr

/-- public.can_access_project: EXISTS a projects row with the given id whose
created_by equals auth.uid() or whose team_members JSONB array contains the
uid as text. -/
def can_access_project (uid pid : String) (projects : List ProjectRow) : Bool :=
  projects.any (fun p => p.id == pid && (p.created_by == some uid || p.team_members.contains uid))

/-- Policy "Users can view projects they are on" (SELECT USING clause). -/
def projects_select_policy (uid : String) (p : ProjectRow) : Bool :=
  p.created_by == some uid || p.team_members.contains uid

/-- Policy "Users can create their own projects" (INSERT WITH CHECK clause):
only `auth.uid() = created_by`. -/
def projects_insert_policy (uid : String) (p : ProjectRow) : Bool :=
  p.created_by == some uid

/-- Policy "Team members can update projects", USING clause (pre-image). -/
def projects_update_using (uid : String) (p : ProjectRow) : Bool :=
  p.created_by == some uid || p.team_members.contains uid

/-- Policy "Team members can update projects", WITH CHECK clause (post-image). -/
def projects_update_check (uid : String) (p : ProjectRow) : Bool :=
  p.created_by == some uid || p.team_members.contains uid

/-- Policy "Team members can delete projects" (USING clause). -/
def projects_delete_policy (uid : String) (p : ProjectRow) : Bool :=
  p.created_by == some uid || p.team_members.contains uid

/-- Tasks SELECT policy: can_access_project(project_id). -/
def tasks_select_policy (uid : String) (t : Task) (projects : List ProjectRow) : Bool :=
  can_access_project uid t.project_id projects

/-- Tasks INSERT policy (WITH CHECK): can_access_project(project_id). -/
def tasks_insert_policy (uid : String) (t : Task) (projects : List ProjectRow) : Bool :=
  can_access_project uid t.project_id projects

/-- Tasks UPDATE policy, USING clause (checks the existing row). -/
def tasks_update_using (uid : String) (t : Task) (projects : List ProjectRow) : Bool :=
  can_access_project uid t.project_id projects

/-- Tasks UPDATE policy, WITH CHECK clause (checks the modified row). -/
def tasks_update_check (uid : String) (t : Task) (projects : List ProjectRow) : Bool :=
  can_access_project uid t.project_id projects

/-- Tasks DELETE policy: can_access_project(project_id). -/
def tasks_delete_policy (uid : String) (t : Task) (projects : List ProjectRow) : Bool :=
  can_access_project uid t.project_id projects

/-- Custom fields SELECT policy. -/
def custom_fields_select_policy (uid : String) (c : CustomField) (projects : List ProjectRow) : Bool :=
  can_access_project uid c.project_id projects

/-- Custom fields INSERT policy. -/
def custom_fields_insert_policy (uid : String) (c : CustomField) (projects : List ProjectRow) : Bool :=
  can_access_project uid c.project_id projects

/-- Custom fields UPDATE policy (USING and WITH CHECK share this clause). -/
def custom_fields_update_policy (uid : String) (c : CustomField) (projects : List ProjectRow) : Bool :=
  can_access_project uid c.project_id projects

/-- Custom fields DELETE policy. -/
def custom_fields_delete_policy (uid : String) (c : CustomField) (projects : List ProjectRow) : Bool :=
  can_access_project uid c.project_id projects

/-- Activity log SELECT policy. -/
def activity_select_policy (uid : String) (a : ActivityEntry) (projects : List ProjectRow) : Bool :=
  can_access_project uid a.project_id projects

/-- Activity log INSERT policy: user_id = auth.uid() AND can_access_project. -/
def activity_insert_policy (uid : String) (a : ActivityEntry) (projects : List ProjectRow) : Bool :=
  a.user_id == some uid && can_access_project uid a.project_id projects

/-- The status values admitted by the CHECK constraint on public.tasks
(narrower than the TypeScript union). -/
def schemaTaskStatusOk (st : TaskStatus) : Bool :=
  st == TaskStatus.notStarted || st == TaskStatus.inProgress ||
  st == TaskStatus.completed || st == TaskStatus.onHold

/-- The schema constraints a tasks row must satisfy on insert/update: the
project_id foreign key resolves, end_date_after_start_date, the progress
range check and the status CHECK. -/
def taskRowCheckOk (t : Task) (projects : List ProjectRow) : Bool :=
  projects.any (fun p => p.id == t.project_id) &&
  decide (t.start_date ≤ t.end_date) &&
  (decide (0 ≤ t.progress) && decide (t.progress ≤ 100)) &&
  schemaTaskStatusOk t.status

/-- The row prepared for a managed-backend insert (the source's defaults;
createTask asserts name non-null, importTasks defaults it, so the resolved
name is a parameter). -/
def prepareSupaTaskRow (input : TaskInsertInput) (now : Int) (fid : String) (nm : String) : Task :=
  { id := fid
    project_id := input.project_id.getD ""
    name := nm
    description := jsStrOrNone input.description
    task_type := input.task_type.getD TaskType.task
    status := input.status.getD TaskStatus.notStarted
    start_date := input.start_date.getD now
    end_date := input.end_date.getD now
    assignee := jsStrOrNone input.assignee
    progress := input.progress.getD 0
    dependencies := input.dependencies.getD []
    custom_fields := input.custom_fields.getD []
    created_at := now
    updated_at := now }

/-- The activity_log insert performed by both logActivity implementations:
the row lands only if it passes the INSERT policy and the schema's foreign
keys (project_id NOT NULL references projects; task_id null or references
tasks).  Neither caller inspects the insert result, so a failing insert is
silently dropped and the surrounding service call still succeeds. -/
def activityInsert (uid : String) (e : ActivityEntry) (db : SupaDb) : SupaDb :=
  if activity_insert_policy uid e db.projects
      && db.projects.any (fun p => p.id == e.project_id)
      && (match e.task_id with
          | none => true
          | some tid => db.tasks.any (fun t => t.id == tid)) then
    { db with activity := db.activity ++ [e] }
  else db

/-- taskService.createTask, managed-backend branch: the insert must pass the
tasks INSERT policy and the schema checks; on success the service appends the
row and then inserts one "task_created" activity entry through logActivity
(whose own insert passes the activity policy and foreign keys, or is
silently dropped — the source never inspects the insert result). -/
def supabaseCreateTask (uid : Option String) (input : TaskInsertInput) (db : SupaDb)
    (now : Int) (fid flid : String) : Except String (Task × SupaDb) :=
  let row := prepareSupaTaskRow input now fid (input.name.getD "")
  match uid with
  | none => Except.error "row-level security violation"
  | some u =>
    if tasks_insert_policy u row db.projects && taskRowCheckOk row db.projects
        && input.project_id.isSome then
      let db1 : SupaDb := { db with tasks := db.tasks ++ [row] }
      let lg := demoLogEntry flid row.project_id (some fid) u "task_created"
        [("task_name", row.name)] now
      Except.ok (row, activityInsert u lg db1)
    else Except.error "insert failed"

/-- The rows prepared by importTasks (managed-backend branch), with indexed
fresh ids and the "Untitled Task" name default. -/
def buildSupaImportRows (idGen : Nat → String) (now : Int) :
    List TaskInsertInput → Nat → List Task
  | [], _ => []
  | input :: rest, k =>
    prepareSupaTaskRow input now (idGen k) (jsOrStr input.name "Untitled Task")
      :: buildSupaImportRows idGen now rest (k + 1)

/-- Whether a multi-row insert passes: every row satisfies the INSERT policy
and the schema checks and carries a non-null project_id.  A single INSERT
statement of many rows is atomic in the backend: one failure aborts all. -/
def supaInsertAllOk (u : String) (inputs : List TaskInsertInput) (rows : List Task)
    (projects : List ProjectRow) : Bool :=
  inputs.all (fun i => i.project_id.isSome) &&
  rows.all (fun r => tasks_insert_policy u r projects && taskRowCheckOk r projects)

/-- taskService.importTasks, managed-backend branch: one atomic multi-row
insert; on success one "tasks_imported" activity entry is logged (only when
at least one row was inserted).  The returned pair keeps the (unchanged)
database alongside the error so atomicity is visible in the model. -/
def supabaseImportTasks (uid : Option String) (idGen : Nat → String) (logId : String)
    (now : Int) (inputs : List TaskInsertInput) (db : SupaDb) :
    Except String (List Task) × SupaDb :=
  let rows := buildSupaImportRows idGen now inputs 0
  match uid with
  | none => (Except.error "row-level security violation", db)
  | some u =>
    if supaInsertAllOk u inputs rows db.projects then
      let db1 : SupaDb := { db with tasks := db.tasks ++ rows }
      let db2 :=
        match rows with
        | [] => db1
        | r :: _ =>
          let lg := demoLogEntry logId r.project_id none u "tasks_imported"
            [("count", toString rows.length)] now
          if activity_insert_policy u lg db1.projects then
            { db1 with activity := db1.activity ++ [lg] }
          else db1
      (Except.ok rows, db2)
    else (Except.error "insert failed", db)

/-- The cascade semantics of deleting a projects row: tasks.project_id and
activity_log.project_id are both ON DELETE CASCADE, so the project's tasks
and its activity rows are removed with it. -/
def deleteProjectCascade (pid : String) (db : SupaDb) : SupaDb :=
  { projects := db.projects.filter (fun p => p.id != pid)
    tasks := db.tasks.filter (fun t => t.project_id != pid)
    activity := (db.activity.filter (fun a => a.project_id != pid)).map (fun a =>
      if db.tasks.any (fun t => t.project_id == pid && some t.id == a.task_id)
      then { a with task_id := none } else a) }

/-- The cascade semantics of deleting a tasks row directly:
activity_log.task_id is ON DELETE SET NULL, so referencing activity rows
survive with the task reference cleared. -/
def deleteTaskCascade (tid : String) (db : SupaDb) : SupaDb :=
  { db with
    tasks := db.tasks.filter (fun t => t.id != tid)
    activity := db.activity.map (fun a =>
      if a.task_id == some tid then { a with task_id := none } else a) }

/-! ## Raw-SQL (sqlserver) variant -/

/-- projectService.getUserProjects, sqlserver branch: a bare
`SELECT * FROM projects` — every row, with no authorization predicate
evaluated anywhere. -/
def sqlserverGetUserProjects (projects : List ProjectRow) : List ProjectRow :=
  projects

/-- projectService.createProject, sqlserver branch: an unconditional INSERT
that never evaluates the predicate and supplies no created_by (the stored
owner is NULL). -/
def sqlserverCreateProject (input : ProjectInsertInput) (projects : List ProjectRow)
    (now : Int) (fid : String) : ProjectRow × List ProjectRow :=
  let row : ProjectRow :=
    { id := fid
      name := input.name
      description := input.description
      status := input.status.getD ProjectStatus.active
      created_date := now
      last_modified := now
      created_by := none
      team_members := input.team_members.getD [] }
  (row, projects ++ [row])

/-! ## Project updates and the remaining managed-backend operations -/

/-- Partial project update (TypeScript `ProjectUpdate`): optional fields
merged over the stored project; last_modified is always refreshed by the
service (demo) or by the update trigger (managed backend). -/
structure ProjectUpdate where
  name : Option String := none
  description : Option (Option String) := none
  status : Option ProjectStatus := none
  team_members : Option (List String) := none
  tasks : Option (List Task) := none
  custom_fields : Option (List CustomField) := none
deriving DecidableEq, Repr

/-- The merge of typeCompatibility.ts updateProject (demo branch): present
update fields win and last_modified is set to now. -/
def applyProjectUpdate (p : Project) (u : ProjectUpdate) (now : Int) : Project :=
  { p with
    name := u.name.getD p.name
    description := u.description.getD p.description
    status := u.status.getD p.status
    team_members := u.team_members.getD p.team_members
    tasks := u.tasks.getD p.tasks
    custom_fields := u.custom_fields.getD p.custom_fields
    last_modified := now }

/-- findIndex on demo projects followed by in-place replacement with the
merged project: only the first project whose id matches is replaced. -/
def updateProjectFirstMatch (pid : String) (u : ProjectUpdate) (now : Int) :
    List Project → Option (Project × List Project)
  | [] => none
  | p :: ps =>
    if p.id == pid then
      let p2 := applyProjectUpdate p u now
      some (p2, p2 :: ps)
    else
      match updateProjectFirstMatch pid u now ps with
      | some (p2, rest) => some (p2, p :: rest)
      | none => none

/-- typeCompatibility.ts updateProject, demo branch: merge the updates into
the first matching project (throwing "Project not found in demo storage"
when none matches), save, and unshift exactly one "project_updated" activity
entry as demo_user.  The source logs the merged finalUpdates object; the
payload is modelled by its always-present refreshed last_modified key. -/
def demoUpdateProject (pid : String) (u : ProjectUpdate) (s : DemoState) (now : Int)
    (flid : String) : Except String (Project × DemoState) :=
  match updateProjectFirstMatch pid u now s.projects with
  | none => Except.error "Project not found in demo storage"
  | some (p2, ps) =>
    Except.ok (p2, { projects := ps
                     activity := demoLogEntry flid pid none "demo_user" "project_updated"
                       [("last_modified", toString now)] now :: s.activity })

/-- typeCompatibility.ts createProject, managed-backend branch: insert the
row with created_by set to the authenticated principal (so the owner-only
INSERT policy passes by construction), then log one "project_created" entry
through logActivity. -/
def supabaseCreateProject (uid : Option String) (input : ProjectInsertInput) (db : SupaDb)
    (now : Int) (fid flid : String) : Except String (ProjectRow × SupaDb) :=
  match uid with
  | none => Except.error "User not authenticated"
  | some u =>
    let row : ProjectRow :=
      { id := fid
        name := input.name
        description := input.description
        status := input.status.getD ProjectStatus.active
        created_date := now
        last_modified := now
        created_by := some u
        team_members := input.team_members.getD [] }
    if projects_insert_policy u row then
      let db1 : SupaDb := { db with projects := db.projects ++ [row] }
      let e := demoLogEntry flid fid none u "project_created"
        [("project_name", row.name)] now
      Except.ok (row, activityInsert u e db1)
    else Except.error "row-level security violation"

/-- The merge applied to a projects row by an UPDATE statement (only the
table's columns; the update trigger refreshes last_modified). -/
def applyProjectRowUpdate (p : ProjectRow) (u : ProjectUpdate) (now : Int) : ProjectRow :=
  { p with
    name := u.name.getD p.name
    description := u.description.getD p.description
    status := u.status.getD p.status
    team_members := u.team_members.getD p.team_members
    last_modified := now }

/-- The row visibility of `update projects ... where id = pid` under RLS:
the first row that matches the id and passes the UPDATE USING clause is
replaced by the merged row. -/
def updateProjectRowFirstMatch (usr pid : String) (u : ProjectUpdate) (now : Int) :
    List ProjectRow → Option (ProjectRow × List ProjectRow)
  | [] => none
  | p :: ps =>
    if p.id == pid && projects_update_using usr p then
      let p2 := applyProjectRowUpdate p u now
      some (p2, p2 :: ps)
    else
      match updateProjectRowFirstMatch usr pid u now ps with
      | some (p2, rest) => some (p2, p :: rest)
      | none => none

/-- typeCompatibility.ts updateProject, managed-backend branch: update the
row visible under the UPDATE USING clause (.single() fails when none), check
the post-image against the WITH CHECK clause, then log one "project_updated"
entry through logActivity. -/
def supabaseUpdateProject (uid : Option String) (pid : String) (u : ProjectUpdate)
    (db : SupaDb) (now : Int) (flid : String) : Except String (ProjectRow × SupaDb) :=
  match uid with
  | none => Except.error "User not authenticated"
  | some usr =>
    match updateProjectRowFirstMatch usr pid u now db.projects with
    | none => Except.error "row not found"
    | some (p2, ps) =>
      if projects_update_check usr p2 then
        let db1 : SupaDb := { db with projects := ps }
        let e := demoLogEntry flid pid none usr "project_updated"
          [("last_modified", toString now)] now
        Except.ok (p2, activityInsert usr e db1)
      else Except.error "row-level security violation"

/-- typeCompatibility.ts deleteProject, managed-backend branch: delete the
rows visible under the DELETE USING clause (cascading to tasks and activity
rows), then attempt to log one "project_deleted" entry — that insert
references the just-deleted project, so its foreign key (or, when nothing
was deleted, its row-level security check) fails and the unchecked insert is
silently dropped. -/
def supabaseDeleteProject (uid : Option String) (pid : String) (db : SupaDb)
    (now : Int) (flid : String) : Except String SupaDb :=
  match uid with
  | none => Except.error "User not authenticated"
  | some u =>
    let e := demoLogEntry flid pid none u "project_deleted" [("project_id", pid)] now
    if db.projects.any (fun p => p.id == pid && projects_delete_policy u p) then
      Except.ok (activityInsert u e (deleteProjectCascade pid db))
    else
      Except.ok (activityInsert u e db)

/-- The row visibility of `update tasks ... where id = tid` under RLS: the
first row that matches the id and passes the tasks UPDATE USING clause is
replaced by the merged row (the update trigger refreshes updated_at). -/
def updateTaskRowFirstMatch (usr tid : String) (u : TaskUpdate) (now : Int)
    (projs : List ProjectRow) : List Task → Option (Task × List Task)
  | [] => none
  | t :: ts =>
    if t.id == tid && tasks_update_using usr t projs then
      let t2 := applyTaskUpdate t u now
      some (t2, t2 :: ts)
    else
      match updateTaskRowFirstMatch usr tid u now projs ts with
      | some (t2, rest) => some (t2, t :: rest)
      | none => none

/-- taskService.updateTask, managed-backend branch: update the visible row
(.single() fails when none), check the post-image against the WITH CHECK
clause and the schema constraints, then log one "task_updated" entry through
logActivity (the payload, the updates object, is modelled opaquely by the
task id). -/
def supabaseUpdateTask (uid : Option String) (tid : String) (u : TaskUpdate) (db : SupaDb)
    (now : Int) (flid : String) : Except String (Task × SupaDb) :=
  match uid with
  | none => Except.error "row not found"
  | some usr =>
    match updateTaskRowFirstMatch usr tid u now db.projects db.tasks with
    | none => Except.error "row not found"
    | some (t2, ts) =>
      if tasks_update_check usr t2 db.projects && taskRowCheckOk t2 db.projects then
        let db1 : SupaDb := { db with tasks := ts }
        let e := demoLogEntry flid t2.project_id (some tid) usr "task_updated"
          [("task_id", tid)] now
        Except.ok (t2, activityInsert usr e db1)
      else Except.error "constraint violation"

/-- taskService.deleteTask, managed-backend branch: delete the rows visible
under the tasks DELETE USING clause (no error when nothing matches; deleted
tasks trigger SET NULL on referencing activity rows), then attempt to log
one "task_deleted" entry — that insert references the just-deleted task, so
when the task was actually removed its foreign key fails and the unchecked
insert is silently dropped. -/
def supabaseDeleteTask (uid : Option String) (tid pidArg : String) (db : SupaDb)
    (now : Int) (flid : String) : Except String SupaDb :=
  match uid with
  | none => Except.ok db
  | some u =>
    let db1 : SupaDb :=
      { db with
        tasks := db.tasks.filter (fun t => !(t.id == tid && tasks_delete_policy u t db.projects))
        activity := db.activity.map (fun a =>
          if db.tasks.any (fun t =>
              (t.id == tid && tasks_delete_policy u t db.projects) && some t.id == a.task_id)
          then { a with task_id := none } else a) }
    let e := demoLogEntry flid pidArg (some tid) u "task_deleted" [("task_id", tid)] now
    Except.ok (activityInsert u e db1)

/-- projectService.ts createProject, sqlserver branch, over the full
database state: the branch issues a single INSERT into projects and nothing
else — no statement in the file touches activity_log, so the activity table
is untouched by construction. -/
def sqlserverCreateProjectState (input : ProjectInsertInput) (db : SupaDb) (now : Int)
    (fid : String) : ProjectRow × SupaDb :=
  ((sqlserverCreateProject input db.projects now fid).1,
    { db with projects := (sqlserverCreateProject input db.projects now fid).2 })

/-! ## Concrete fixtures -/

/-- A stored demo task, initially on hold with progress 10. -/
def exTask1 : Task :=
  { id := "t1", project_id := "p1", name := "Task One", description := none
    task_type := TaskType.task, status := TaskStatus.onHold
    start_date := 1, end_date := 10, assignee := none, progress := 10
    dependencies := [], custom_fields := [], created_at := 0, updated_at := 0 }

/-- A demo project holding exTask1. -/
def exProject1 : Project :=
  { id := "p1", name := "Proj", description := none, status := ProjectStatus.active
    created_at := 0, last_modified := 0, created_by := "demo_user", team_members := []
    tasks := [exTask1], custom_fields := [], lastModifiedCamel := none }

/-- A demo state with one project and an empty activity log. -/
def exState : DemoState := { projects := [exProject1], activity := [] }

/-- A completed task, dependency target. -/
def exTaskA : Task := { exTask1 with id := "tA", status := TaskStatus.completed }

/-- A task depending on the completed exTaskA. -/
def exTaskB : Task :=
  { exTask1 with id := "tB", status := TaskStatus.notStarted, dependencies := ["tA"] }

/-- A task whose single dependency id resolves to no task at all. -/
def exTaskD : Task :=
  { exTask1 with id := "tD", status := TaskStatus.notStarted, dependencies := ["ghost"] }

/-- Three completed tasks and a task depending on all three. -/
def exTaskX1 : Task := { exTask1 with id := "tX1", status := TaskStatus.completed }

/-- Second completed dependency target. -/
def exTaskX2 : Task := { exTask1 with id := "tX2", status := TaskStatus.completed }

/-- Third completed dependency target. -/
def exTaskX3 : Task := { exTask1 with id := "tX3", status := TaskStatus.completed }

/-- A task with three dependencies, all completed. -/
def exTaskE : Task :=
  { exTask1 with
    id := "tE"
    status := TaskStatus.notStarted
    dependencies := ["tX1", "tX2", "tX3"] }

/-- A task with three dependencies of which only one is completed. -/
def exTaskF : Task :=
  { exTask1 with
    id := "tF"
    status := TaskStatus.notStarted
    dependencies := ["tA", "tB", "tD"] }

/-- The dependency-test project. -/
def exProject4 : Project :=
  { exProject1 with
    id := "p4"
    tasks := [exTaskA, exTaskB, exTaskD, exTaskX1, exTaskX2, exTaskX3, exTaskE, exTaskF] }

/-- The dependency-test project list. -/
def exProjects4 : List Project := [exProject4]

/-- A projects row owned by someone else whose team contains "mem1". -/
def exRowMember : ProjectRow :=
  { id := "p1", name := "P", description := none, status := ProjectStatus.active
    created_date := 0, last_modified := 0, created_by := some "owner9"
    team_members := ["mem1"] }

/-- A projects row owned by "u1" with no team members. -/
def exRowU1 : ProjectRow := { exRowMember with created_by := some "u1", team_members := [] }

/-- A managed-backend database with one project owned by "u1". -/
def exDb : SupaDb := { projects := [exRowU1], tasks := [], activity := [] }

/-- A projects row owned by "owner1" with no team, for the raw-SQL variant. -/
def exStrangerRow : ProjectRow :=
  { exRowMember with id := "pS", created_by := some "owner1", team_members := [] }

/-- A well-formed task input for project p1. -/
def exGoodInput : TaskInsertInput :=
  { project_id := some "p1", name := some "New Task", description := none
    task_type := none, status := none, start_date := some 2, end_date := some 8
    assignee := none, progress := none, dependencies := none, custom_fields := none }

/-- A task input whose end date precedes its start date. -/
def exBadInput : TaskInsertInput :=
  { exGoodInput with name := some "Bad Task", start_date := some 5, end_date := some 3 }

/-- An import spec with no project_id (the invalid third item of the
bulk-import scenario). -/
def exNoProjectInput : TaskInsertInput := { exGoodInput with project_id := none }

/-- Five import specs, the third invalid. -/
def exImports : List TaskInsertInput :=
  [exGoodInput, exGoodInput, exNoProjectInput, exGoodInput, exGoodInput]

/-- A deterministic id supply for import runs. -/
def exIdGen : Nat → String := fun k => "i" ++ toString k

/-- The task demoCreateTask builds from exGoodInput. -/
def exNewTask : Task := buildDemoTask exGoodInput "p1" 9 "tN"

/-- The demo state after creating exNewTask in exState. -/
def exStateAfterCreate : DemoState :=
  { projects := [{ exProject1 with tasks := [exTask1, exNewTask], lastModifiedCamel := some 9 }]
    activity := [] }

/-- The task demoCreateTask builds from exBadInput (end_date 3 before
start_date 5). -/
def exBadTask : Task := buildDemoTask exBadInput "p1" 9 "tb"

/-- The demo state after storing the invalid-date task. -/
def exBadState : DemoState :=
  { projects := [{ exProject1 with tasks := [exTask1, exBadTask], lastModifiedCamel := some 9 }]
    activity := [] }

/-- exTask1 after updateTaskProgress with progress 50: only progress and
updated_at move; the on-hold status is preserved. -/
def exT1After : Task := { exTask1 with progress := 50, updated_at := 9 }

/-- The demo state after that progress update. -/
def exStateAfterProg : DemoState :=
  { projects := [{ exProject1 with tasks := [exT1After] }], activity := [] }

/-- The managed-backend row built from exGoodInput. -/
def exRow9 : Task := prepareSupaTaskRow exGoodInput 9 "t9" "New Task"

/-- The activity entry logged for that managed-backend task creation. -/
def exLg9 : ActivityEntry :=
  demoLogEntry "l9" "p1" (some "t9") "u1" "task_created" [("task_name", "New Task")] 9

/-- The managed-backend database after creating exRow9 in exDb. -/
def exDb9 : SupaDb := { projects := [exRowU1], tasks := [exRow9], activity := [exLg9] }

/-- The projects row of the cascade round-trip scenario. -/
def exRow8 : ProjectRow := { exRowMember with id := "p8", created_by := some "u8" }

/-- First of the three tasks under p8. -/
def exT81 : Task := { exTask1 with id := "t81", project_id := "p8" }

/-- Second of the three tasks under p8. -/
def exT82 : Task := { exTask1 with id := "t82", project_id := "p8" }

/-- Third of the three tasks under p8. -/
def exT83 : Task := { exTask1 with id := "t83", project_id := "p8" }

/-- An activity row of project p8 referencing task t81. -/
def exA8 : ActivityEntry :=
  demoLogEntry "a8" "p8" (some "t81") "u8" "task_created" [("task_name", "Task One")] 1

/-- The round-trip database: one project, its three tasks, one activity row
referencing one of the tasks. -/
def exDb8 : SupaDb :=
  { projects := [exRow8], tasks := [exT81, exT82, exT83], activity := [exA8] }

/-- A raw-SQL project insert input. -/
def exPI : ProjectInsertInput :=
  { name := "N", description := none, status := none, team_members := none }

/-- The database after the managed-backend deleteProject of p1 in exDb: the
cascade empties everything and the "project_deleted" log insert is dropped. -/
def exDbAfterDel : SupaDb := { projects := [], tasks := [], activity := [] }

/-! ## Helper lemmas -/

/-- find? over a list that starts with elements failing the predicate
followed by one satisfying it returns that element. -/
theorem find_skip_left {α : Type} (p : α → Bool) (l1 : List α) (a : α) (l2 : List α)
    (h : ∀ x ∈ l1, p x = false) (h2 : p a = true) :
    (l1 ++ a :: l2).find? p = some a := by
  induction l1 with
  | nil => simp [List.find?, h2]
  | cons x xs ih =>
    rw [List.cons_append, List.find?_cons_of_neg]
    · exact ih (fun y hy => h y (by simp [hy]))
    · simp [h x (by simp)]

/-! ## Claim theorems -/

/-- Claim C1, counterexample to the claim as stated: the projects INSERT
policy is `auth.uid() = created_by` alone, so a principal who appears in the
new row's team_members but is not its created_by is denied the insert even
though canAccessProject holds for that row. -/
theorem claim_C1_counterexample :
    projects_insert_policy "mem1" exRowMember = false ∧
    can_access_project "mem1" "p1" [exRowMember] = true := by
  constructor <;> rfl

/-- Claim C1 (amended): canAccessProject(P, X) is true iff P is the owner of
X or a member of X's team_members; this predicate is exactly the gate for
select/update/delete on projects and for every operation on tasks and
custom_fields and the select path of activity_log; the activity_log insert
additionally requires user_id to equal the principal; the projects insert is
gated by the stricter owner-only condition `auth.uid() = created_by`. -/
theorem claim_C1 (uid pid : String) (projects : List ProjectRow) (p : ProjectRow)
    (t : Task) (c : CustomField) (a : ActivityEntry) :
    (can_access_project uid pid projects = true ↔
      ∃ q, q ∈ projects ∧ q.id = pid ∧ (q.created_by = some uid ∨ uid ∈ q.team_members)) ∧
    (projects_select_policy uid p = true ↔ (p.created_by = some uid ∨ uid ∈ p.team_members)) ∧
    projects_update_using uid p = projects_select_policy uid p ∧
    projects_update_check uid p = projects_select_policy uid p ∧
    projects_delete_policy uid p = projects_select_policy uid p ∧
    (projects_insert_policy uid p = true ↔ p.created_by = some uid) ∧
    tasks_select_policy uid t projects = can_access_project uid t.project_id projects ∧
    tasks_insert_policy uid t projects = can_access_project uid t.project_id projects ∧
    tasks_update_using uid t projects = can_access_project uid t.project_id projects ∧
    tasks_update_check uid t projects = can_access_project uid t.project_id projects ∧
    tasks_delete_policy uid t projects = can_access_project uid t.project_id projects ∧
    custom_fields_select_policy uid c projects = can_access_project uid c.project_id projects ∧
    custom_fields_insert_policy uid c projects = can_access_project uid c.project_id projects ∧
    custom_fields_update_policy uid c projects = can_access_project uid c.project_id projects ∧
    custom_fields_delete_policy uid c projects = can_access_project uid c.project_id projects ∧
    activity_select_policy uid a projects = can_access_project uid a.project_id projects ∧
    (activity_insert_policy uid a projects = true ↔
      (a.user_id = some uid ∧ can_access_project uid a.project_id projects = true)) := by
  refine ⟨?_, ?_, rfl, rfl, rfl, ?_, rfl, rfl, rfl, rfl, rfl, rfl, rfl, rfl, rfl, rfl, ?_⟩
  · simp only [can_access_project, List.any_eq_true, Bool.and_eq_true, Bool.or_eq_true,
      beq_iff_eq]
    constructor
    · rintro ⟨q, hq, h1, h2⟩
      exact ⟨q, hq, h1, by simpa using h2⟩
    · rintro ⟨q, hq, h1, h2⟩
      exact ⟨q, hq, h1, by simpa using h2⟩
  · simp [projects_select_policy]
  · simp [projects_insert_policy]
  · simp [activity_insert_policy]

/-- Claim C2 (code bug): the raw-SQL variant's getUserProjects issues a bare
SELECT with no application-side canAccessProject evaluation: a stranger with
no ownership and no membership still receives every project row; its
createProject likewise inserts unconditionally, storing a NULL owner. -/
theorem claim_C2 :
    exStrangerRow ∈ sqlserverGetUserProjects [exStrangerRow] ∧
    can_access_project "stranger" "pS" [exStrangerRow] = false ∧
    (sqlserverCreateProject exPI [] 0 "pN").1.created_by = none := by
  refine ⟨by simp [sqlserverGetUserProjects], rfl, rfl⟩

/-- Claim C5 (code bug): the demo/local variant performs no date validation:
creating a task whose end_date (3) precedes its start_date (5) succeeds and
the violating task is stored, while the very same input fails the schema
CHECK constraint and is rejected by the managed backend. -/
theorem claim_C5 :
    demoCreateTask exBadInput exState 9 "tb" = Except.ok (exBadTask, exBadState) ∧
    exBadTask.end_date < exBadTask.start_date ∧
    demoFindTask "p1" "tb" exBadState = some exBadTask ∧
    taskRowCheckOk exBadTask [exRowU1] = false ∧
    supabaseCreateTask (some "u1") exBadInput exDb 9 "tb" "lb" = Except.error "insert failed" := by
  refine ⟨rfl, by decide, rfl, by decide, rfl⟩

/-- Claim C8, counterexample to the claim as stated: activity_log.project_id
is ON DELETE CASCADE, so after deleting the project the activity row that
referenced one of the cascaded tasks is itself deleted rather than retained
with a null task reference. -/
theorem claim_C8_counterexample :
    exA8 ∈ exDb8.activity ∧ exA8.task_id = some "t81" ∧
    (deleteProjectCascade "p8" exDb8).tasks = [] ∧
    (deleteProjectCascade "p8" exDb8).activity = [] := by
  refine ⟨by simp [exDb8], rfl, rfl, rfl⟩

/-- Claim C8 (amended): deleting a project cascades to its tasks AND to its
activity rows (none survive); an activity row survives with its task
reference cleared to null only when the task is deleted directly, in which
case the activity table's size is unchanged. -/
theorem claim_C8 :
    (∀ (db : SupaDb) (pid : String) (t : Task),
      t ∈ (deleteProjectCascade pid db).tasks ↔ (t ∈ db.tasks ∧ ¬ t.project_id = pid)) ∧
    (∀ (db : SupaDb) (pid : String) (p : ProjectRow),
      p ∈ (deleteProjectCascade pid db).projects ↔ (p ∈ db.projects ∧ ¬ p.id = pid)) ∧
    (∀ (db : SupaDb) (pid : String),
      (deleteProjectCascade pid db).activity.all (fun a => a.project_id != pid) = true) ∧
    (∀ (db : SupaDb) (tid : String),
      (deleteTaskCascade tid db).activity.length = db.activity.length ∧
      (deleteTaskCascade tid db).activity.all (fun a => a.task_id != some tid) = true ∧
      (deleteTaskCascade tid db).tasks.all (fun t => t.id != tid) = true) := by
  refine ⟨?_, ?_, ?_, ?_⟩
  · intro db pid t
    simp [deleteProjectCascade, List.mem_filter]
  · intro db pid p
    simp [deleteProjectCascade, List.mem_filter]
  · intro db pid
    simp only [deleteProjectCascade, List.all_map, List.all_eq_true, Function.comp,
      bne_iff_ne, ne_eq]
    intro a ha
    rw [List.mem_filter] at ha
    have hne : ¬ a.project_id = pid := by simpa using ha.2
    split <;> simpa using hne
  · intro db tid
    refine ⟨by simp [deleteTaskCascade], ?_, ?_⟩
    · simp only [deleteTaskCascade, List.all_map, List.all_eq_true]
      intro a _
      by_cases hc : a.task_id = some tid
      · simp [hc]
      · simp [hc]
    · simp only [deleteTaskCascade, List.all_eq_true]
      intro t ht
      exact (List.mem_filter.mp ht).2

/-- updateTaskFirstMatch splits the task list at the first matching id and
replaces that task with the merged task. -/
theorem updateTaskFirstMatch_spec (tid : String) (u : TaskUpdate) (now : Int) :
    ∀ (ts : List Task) (tr : Task) (ts2 : List Task),
    updateTaskFirstMatch tid u now ts = some (tr, ts2) →
    ∃ l1 t l2, ts = l1 ++ t :: l2 ∧ (∀ x ∈ l1, (x.id == tid) = false) ∧
      (t.id == tid) = true ∧ tr = applyTaskUpdate t u now ∧ ts2 = l1 ++ tr :: l2 := by
  intro ts
  induction ts with
  | nil => intro tr ts2 h; simp [updateTaskFirstMatch] at h
  | cons x xs ih =>
    intro tr ts2 h
    cases hx : x.id == tid with
    | true =>
      simp [updateTaskFirstMatch, hx] at h
      refine ⟨[], x, xs, rfl, by simp, hx, h.1.symm, ?_⟩
      rw [← h.2, h.1]
      simp
    | false =>
      simp only [updateTaskFirstMatch, hx, Bool.false_eq_true, if_neg] at h
      cases hrec : updateTaskFirstMatch tid u now xs with
      | none => rw [hrec] at h; simp at h
      | some pr =>
        obtain ⟨t0, rest⟩ := pr
        rw [hrec] at h
        simp at h
        obtain ⟨l1, t, l2, e1, e2, e3, e4, e5⟩ := ih t0 rest hrec
        refine ⟨x :: l1, t, l2, by simp [e1], ?_, e3, by rw [h.1.symm, e4], ?_⟩
        · intro y hy
          rcases List.mem_cons.mp hy with hy1 | hy2
          · rw [hy1]; exact hx
          · exact e2 y hy2
        · rw [← h.2, e5, h.1]
          simp

/-- demoUpdateTaskInProjects splits the project list at the first matching
project id and updates that project's first matching task. -/
theorem demoUpdateTaskInProjects_spec (tid pid : String) (u : TaskUpdate) (now : Int) :
    ∀ (ps : List Project) (tr : Task) (ps2 : List Project),
    demoUpdateTaskInProjects tid pid u now ps = some (tr, ps2) →
    ∃ q1 pr q2 l1 t l2,
      ps = q1 ++ pr :: q2 ∧ (∀ x ∈ q1, (x.id == pid) = false) ∧ (pr.id == pid) = true ∧
      pr.tasks = l1 ++ t :: l2 ∧ (∀ x ∈ l1, (x.id == tid) = false) ∧ (t.id == tid) = true ∧
      tr = applyTaskUpdate t u now ∧
      ps2 = q1 ++ ({ pr with tasks := l1 ++ tr :: l2 }) :: q2 := by
  intro ps
  induction ps with
  | nil => intro tr ps2 h; simp [demoUpdateTaskInProjects] at h
  | cons p ps ih =>
    intro tr ps2 h
    cases hp : p.id == pid with
    | true =>
      simp only [demoUpdateTaskInProjects, hp, if_pos] at h
      cases hrec : updateTaskFirstMatch tid u now p.tasks with
      | none => rw [hrec] at h; simp at h
      | some pr0 =>
        obtain ⟨t0, ts0⟩ := pr0
        rw [hrec] at h
        simp at h
        obtain ⟨l1, t, l2, e1, e2, e3, e4, e5⟩ := updateTaskFirstMatch_spec tid u now p.tasks t0 ts0 hrec
        refine ⟨[], p, ps, l1, t, l2, rfl, by simp, hp, e1, e2, e3, ?_, ?_⟩
        · rw [← h.1]; exact e4
        · rw [← h.2, e5, h.1]
          simp
    | false =>
      simp only [demoUpdateTaskInProjects, hp, Bool.false_eq_true, if_neg] at h
      cases hrec : demoUpdateTaskInProjects tid pid u now ps with
      | none => rw [hrec] at h; simp at h
      | some pr0 =>
        obtain ⟨t0, rest⟩ := pr0
        rw [hrec] at h
        simp at h
        obtain ⟨q1, pr, q2, l1, t, l2, e1, e2, e3, e4, e5, e6, e7, e8⟩ := ih t0 rest hrec
        refine ⟨p :: q1, pr, q2, l1, t, l2, by simp [e1], ?_, e3, e4, e5, e6,
          by rw [h.1.symm, e7], ?_⟩
        · intro y hy
          rcases List.mem_cons.mp hy with hy1 | hy2
          · rw [hy1]; exact hp
          · exact e2 y hy2
        · rw [← h.2, e8, h.1]
          simp

/-- demoUpdateTask: full characterization of a successful update, including
the fact that demoFindTask locates exactly the task that was replaced. -/
theorem demoUpdateTask_spec (tid pid : String) (u : TaskUpdate) (now : Int) (s : DemoState)
    (tr : Task) (s2 : DemoState) (h : demoUpdateTask tid pid u s now = Except.ok (tr, s2)) :
    ∃ q1 pr q2 l1 t l2,
      s.projects = q1 ++ pr :: q2 ∧ (pr.id == pid) = true ∧
      pr.tasks = l1 ++ t :: l2 ∧ (t.id == tid) = true ∧
      demoFindTask pid tid s = some t ∧
      tr = applyTaskUpdate t u now ∧
      s2 = { s with projects := q1 ++ ({ pr with tasks := l1 ++ tr :: l2 }) :: q2 } := by
  unfold demoUpdateTask at h
  cases hrec : demoUpdateTaskInProjects tid pid u now s.projects with
  | none => rw [hrec] at h; simp at h
  | some pr0 =>
    obtain ⟨t0, ps0⟩ := pr0
    rw [hrec] at h
    simp at h
    obtain ⟨q1, pr, q2, l1, t, l2, e1, e2, e3, e4, e5, e6, e7, e8⟩ :=
      demoUpdateTaskInProjects_spec tid pid u now s.projects t0 ps0 hrec
    refine ⟨q1, pr, q2, l1, t, l2, e1, e3, e4, e6, ?_, by rw [h.1.symm, e7], ?_⟩
    · unfold demoFindTask
      rw [e1, find_skip_left (fun p => p.id == pid) q1 pr q2 e2 e3]
      show pr.tasks.find? (fun x => x.id == tid) = some t
      rw [e4]
      exact find_skip_left (fun x => x.id == tid) l1 t l2 e5 e6
    · rw [← h.2, e8, h.1]

/-- Applying the updates object built by updateTaskProgress to the found task
changes exactly progress, status (to the derived status) and updated_at. -/
theorem applyTaskUpdate_progress (t : Task) (pg now : Int) :
    applyTaskUpdate t (progressUpdates t.status pg) now =
      { t with progress := pg, status := deriveProgressStatus t.status pg, updated_at := now } := by
  unfold applyTaskUpdate progressUpdates
  by_cases h : deriveProgressStatus t.status pg = t.status
  · simp [h]
  · simp [h]

/-- demoUpdateTaskProgress: full characterization of a successful call. -/
theorem demoUpdateTaskProgress_spec (tid pid : String) (pg now : Int) (s : DemoState)
    (tr : Task) (s2 : DemoState)
    (h : demoUpdateTaskProgress tid pid pg s now = Except.ok (tr, s2)) :
    ∃ q1 pr q2 l1 t l2,
      s.projects = q1 ++ pr :: q2 ∧ (pr.id == pid) = true ∧
      pr.tasks = l1 ++ t :: l2 ∧ (t.id == tid) = true ∧
      demoFindTask pid tid s = some t ∧
      tr = { t with
             progress := pg
             status := deriveProgressStatus t.status pg
             updated_at := now } ∧
      s2 = { s with projects := q1 ++ ({ pr with tasks := l1 ++ tr :: l2 }) :: q2 } := by
  unfold demoUpdateTaskProgress at h
  cases hf : demoFindTask pid tid s with
  | none => rw [hf] at h; simp at h
  | some t0 =>
    rw [hf] at h
    obtain ⟨q1, pr, q2, l1, t, l2, e1, e2, e3, e4, e5, e6, e7⟩ :=
      demoUpdateTask_spec tid pid (progressUpdates t0.status pg) now s tr s2 h
    have ht0 : t0 = t := Option.some_inj.mp (hf.symm.trans e5)
    refine ⟨q1, pr, q2, l1, t, l2, e1, e2, e3, e4, by rw [ht0], ?_, e7⟩
    rw [e6, ht0]
    exact applyTaskUpdate_progress t pg now

/-- Claim C9: a successful updateTaskProgress changes only the target task's
progress, status and updated_at; every other field of the task, every other
task, every other project and the activity log are unchanged. -/
theorem claim_C9 (tid pid : String) (pg now : Int) (s : DemoState) (tr : Task) (s2 : DemoState)
    (h : demoUpdateTaskProgress tid pid pg s now = Except.ok (tr, s2)) :
    s2.activity = s.activity ∧
    ∃ q1 pr q2 l1 t l2,
      s.projects = q1 ++ pr :: q2 ∧ pr.id = pid ∧
      pr.tasks = l1 ++ t :: l2 ∧ t.id = tid ∧
      tr = { t with
             progress := pg
             status := deriveProgressStatus t.status pg
             updated_at := now } ∧
      s2.projects = q1 ++ ({ pr with tasks := l1 ++ tr :: l2 }) :: q2 := by
  obtain ⟨q1, pr, q2, l1, t, l2, e1, e2, e3, e4, _, e6, e7⟩ :=
    demoUpdateTaskProgress_spec tid pid pg now s tr s2 h
  exact ⟨by rw [e7], q1, pr, q2, l1, t, l2, e1, by simpa using e2, e3, by simpa using e4,
    e6, by rw [e7]⟩

/-- Claim C9 witness: updating task t1 of project p1 to progress 50 yields
exactly the expected task and state. -/
theorem claim_C9_witness :
    exStateAfterProg.activity = exState.activity ∧
    ∃ q1 pr q2 l1 t l2,
      exState.projects = q1 ++ pr :: q2 ∧ pr.id = "p1" ∧
      pr.tasks = l1 ++ t :: l2 ∧ t.id = "t1" ∧
      exT1After = { t with
                    progress := 50
                    status := deriveProgressStatus t.status 50
                    updated_at := 9 } ∧
      exStateAfterProg.projects = q1 ++ ({ pr with tasks := l1 ++ exT1After :: l2 }) :: q2 :=
  claim_C9 "t1" "p1" 50 9 exState exT1After exStateAfterProg (by rfl)

/-- Claim C3: the progress-to-status derivation of updateTaskProgress, in the
source's order — nonpositive progress forces not-started, progress of 100 or
more forces completed, strictly intermediate progress moves a not-started or
completed task to in-progress and leaves any other prior status unchanged. -/
theorem claim_C3 (tid pid : String) (pg now : Int) (s : DemoState) (t tr : Task) (s2 : DemoState)
    (hf : demoFindTask pid tid s = some t)
    (h : demoUpdateTaskProgress tid pid pg s now = Except.ok (tr, s2)) :
    (pg ≤ 0 → tr.status = TaskStatus.notStarted) ∧
    (100 ≤ pg → tr.status = TaskStatus.completed) ∧
    (0 < pg → pg < 100 → (t.status = TaskStatus.notStarted ∨ t.status = TaskStatus.completed) →
      tr.status = TaskStatus.inProgress) ∧
    (0 < pg → pg < 100 → t.status ≠ TaskStatus.notStarted → t.status ≠ TaskStatus.completed →
      tr.status = t.status) := by
  obtain ⟨q1, pr, q2, l1, t0, l2, _, _, _, _, e5, e6, _⟩ :=
    demoUpdateTaskProgress_spec tid pid pg now s tr s2 h
  have ht : t0 = t := Option.some_inj.mp (e5.symm.trans hf)
  subst ht
  have hst : tr.status = deriveProgressStatus t0.status pg := by simp [e6]
  refine ⟨?_, ?_, ?_, ?_⟩
  · intro hp
    rw [hst]; unfold deriveProgressStatus; rw [if_pos hp]
  · intro hp
    rw [hst]; unfold deriveProgressStatus
    rw [if_neg (by omega), if_pos (by omega)]
  · intro hp1 hp2 hpre
    rw [hst]; unfold deriveProgressStatus
    rw [if_neg (by omega), if_neg (by omega), if_pos hpre]
  · intro hp1 hp2 hn1 hn2
    rw [hst]; unfold deriveProgressStatus
    rw [if_neg (by omega), if_neg (by omega), if_neg (by simp [hn1, hn2])]

/-- Claim C3 witness: a task on hold receiving progress 50 keeps its
on-hold status. -/
theorem claim_C3_witness :
    exTask1.status = TaskStatus.onHold ∧ exT1After.status = exTask1.status := by
  refine ⟨rfl, ?_⟩
  exact (claim_C3 "t1" "p1" 50 9 exState exTask1 exT1After exStateAfterProg (by rfl)
    (by rfl)).2.2.2 (by decide) (by decide) (by decide) (by decide)

/-- Claim C4, counterexample to the claim as stated: task tD's only
dependency id "ghost" resolves to no task at all, yet canStartTask returns
true, because getTaskDependencies silently drops unresolvable ids. -/
theorem claim_C4_counterexample :
    findTaskProject "tD" exProjects4 = some (exProject4, exTaskD) ∧
    exTaskD.dependencies = ["ghost"] ∧
    exProject4.tasks.all (fun x => x.id != "ghost") = true ∧
    canStartTask exProjects4 "tD" = true := by
  exact ⟨by rfl, rfl, by rfl, by rfl⟩

/-- Claim C4 (amended): canStartTask is true iff every task of the same
project whose id occurs in the dependency list is completed (or done);
dependency ids that resolve to no task are ignored, and a task with an empty
dependency list can always start. -/
theorem claim_C4 (taskId : String) (projects : List Project) (pr : Project) (t : Task)
    (h : findTaskProject taskId projects = some (pr, t)) :
    canStartTask projects taskId = true ↔
      ∀ d ∈ pr.tasks, d.id ∈ t.dependencies →
        (d.status = TaskStatus.completed ∨ d.status = TaskStatus.done) := by
  have ifall : ∀ (l : List Task) (f : Task → Bool),
      (if l.isEmpty then true else l.all f) = l.all f := by
    intro l f; cases l <;> simp
  have hdeps : getTaskDependencies projects taskId =
      if t.dependencies.isEmpty then []
      else pr.tasks.filter (fun x => t.dependencies.contains x.id) := by
    unfold getTaskDependencies; rw [h]
  have key : canStartTask projects taskId =
      (pr.tasks.filter (fun x => t.dependencies.contains x.id)).all
        (fun d => d.status == TaskStatus.completed || d.status == TaskStatus.done) := by
    unfold canStartTask
    rw [hdeps]
    by_cases hdep : t.dependencies.isEmpty = true
    · have hnil : t.dependencies = [] := by simpa using hdep
      rw [if_pos hdep]
      simp [hnil]
    · rw [if_neg hdep, ifall]
  rw [key]
  simp [List.all_eq_true, List.mem_filter, and_imp]
  exact forall₂_congr fun d hd => by tauto

/-- Claim C4 witness: a task with three dependencies, all completed, can
start. -/
theorem claim_C4_witness : canStartTask exProjects4 "tE" = true ∧
    exTaskE.dependencies.length = 3 := by
  refine ⟨?_, rfl⟩
  exact (claim_C4 "tE" exProjects4 exProject4 exTaskE (by rfl)).mpr (by decide)

/-- insertTaskFirstMatch preserves the sequence of project ids. -/
theorem insertTaskFirstMatch_ids (pid : String) (t : Task) (now : Int) :
    ∀ (ps ps2 : List Project), insertTaskFirstMatch pid t now ps = some ps2 →
      ps2.map (fun p => p.id) = ps.map (fun p => p.id) := by
  intro ps
  induction ps with
  | nil => intro ps2 h; simp [insertTaskFirstMatch] at h
  | cons p rest ih =>
    intro ps2 h
    cases hp : p.id == pid with
    | true =>
      simp [insertTaskFirstMatch, hp] at h
      rw [← h]
      simp
    | false =>
      simp only [insertTaskFirstMatch, hp, Bool.false_eq_true, if_neg] at h
      cases hrec : insertTaskFirstMatch pid t now rest with
      | none => rw [hrec] at h; simp at h
      | some r2 =>
        rw [hrec] at h
        simp at h
        rw [← h]
        simp [ih r2 hrec]

/-- insertTaskFirstMatch succeeds exactly when some project id matches. -/
theorem insertTaskFirstMatch_isSome (pid : String) (t : Task) (now : Int) :
    ∀ (ps : List Project),
      (insertTaskFirstMatch pid t now ps).isSome = ps.any (fun p => p.id == pid) := by
  intro ps
  induction ps with
  | nil => rfl
  | cons p rest ih =>
    cases hp : p.id == pid with
    | true => simp [insertTaskFirstMatch, hp]
    | false =>
      cases hrec : insertTaskFirstMatch pid t now rest with
      | none =>
        simp only [insertTaskFirstMatch, hp, Bool.false_eq_true, if_neg, hrec]
        rw [hrec] at ih
        simp [List.any_cons, hp, ← ih]
      | some r2 =>
        simp only [insertTaskFirstMatch, hp, Bool.false_eq_true, if_neg, hrec]
        rw [hrec] at ih
        simp [List.any_cons, hp, ← ih]

/-- demoCreateTask never changes the sequence of project ids. -/
theorem demoCreateTask_ids (input : TaskInsertInput) (s : DemoState) (now : Int) (fid : String)
    (t : Task) (s2 : DemoState) (h : demoCreateTask input s now fid = Except.ok (t, s2)) :
    s2.projects.map (fun p => p.id) = s.projects.map (fun p => p.id) := by
  cases hpid : input.project_id with
  | none => simp [demoCreateTask, hpid] at h
  | some pid =>
    simp only [demoCreateTask, hpid] at h
    cases hins : insertTaskFirstMatch pid (buildDemoTask input pid now fid) now s.projects with
    | none => rw [hins] at h; simp at h
    | some ps =>
      rw [hins] at h
      simp at h
      rw [← h.2]
      simpa using insertTaskFirstMatch_ids pid (buildDemoTask input pid now fid) now s.projects ps hins

/-- any over a mapped list tests the composite predicate. -/
theorem any_map_general {α β : Type} (f : α → β) (p : β → Bool) :
    ∀ (l : List α), (l.map f).any p = l.any (fun a => p (f a)) := by
  intro l
  induction l with
  | nil => rfl
  | cons x xs ih => simp [List.any_cons, ih]

/-- Whether an import spec can be created depends only on the project ids. -/
theorem demoImportOk_congr (s s2 : DemoState)
    (hid : s2.projects.map (fun p => p.id) = s.projects.map (fun p => p.id))
    (i : TaskInsertInput) : demoImportOk s2 i = demoImportOk s i := by
  unfold demoImportOk
  cases i.project_id with
  | none => rfl
  | some pid =>
    show (s2.projects.any fun p => p.id == pid) = (s.projects.any fun p => p.id == pid)
    have h2 : ∀ (st : DemoState), st.projects.any (fun p => p.id == pid)
        = (st.projects.map (fun p => p.id)).any (fun x => x == pid) := by
      intro st
      rw [any_map_general]
    rw [h2, h2, hid]

/-- buildSupaImportRows prepares exactly one row per import spec. -/
theorem buildSupaImportRows_length (idGen : Nat → String) (now : Int) :
    ∀ (inputs : List TaskInsertInput) (k : Nat),
      (buildSupaImportRows idGen now inputs k).length = inputs.length := by
  intro inputs
  induction inputs with
  | nil => intro k; rfl
  | cons i rest ih => intro k; simp [buildSupaImportRows, ih]

/-- Claim C6: bulk import is best-effort in the demo/local variant — the
caller receives exactly one task per spec that could be created, skipping
failures — and atomic in the managed-backend variant — an error leaves the
database untouched, and success inserts one row per spec, all appended. -/
theorem claim_C6 :
    (∀ (idGen : Nat → String) (now : Int) (inputs : List TaskInsertInput)
        (s : DemoState) (k : Nat),
      (demoImportTasks idGen now inputs s k).1.length = inputs.countP (demoImportOk s)) ∧
    (∀ (uid : Option String) (idGen : Nat → String) (logId : String) (now : Int)
        (inputs : List TaskInsertInput) (db : SupaDb) (e : String),
      (supabaseImportTasks uid idGen logId now inputs db).1 = Except.error e →
      (supabaseImportTasks uid idGen logId now inputs db).2 = db) ∧
    (∀ (uid : Option String) (idGen : Nat → String) (logId : String) (now : Int)
        (inputs : List TaskInsertInput) (db : SupaDb) (ts : List Task),
      (supabaseImportTasks uid idGen logId now inputs db).1 = Except.ok ts →
      (supabaseImportTasks uid idGen logId now inputs db).2.tasks = db.tasks ++ ts ∧
      ts.length = inputs.length) := by
  refine ⟨?_, ?_, ?_⟩
  · intro idGen now inputs
    induction inputs with
    | nil => intro s k; simp [demoImportTasks]
    | cons i rest ih =>
      intro s k
      cases hpid : i.project_id with
      | none =>
        have hOk : demoImportOk s i = false := by unfold demoImportOk; rw [hpid]
        simp [demoImportTasks, hpid, List.countP_cons, hOk, ih s k]
      | some pid =>
        cases hc : demoCreateTask i s now (idGen k) with
        | error e =>
          have hOk : demoImportOk s i = false := by
            unfold demoImportOk
            rw [hpid]
            show (s.projects.any fun p => p.id == pid) = false
            simp only [demoCreateTask, hpid] at hc
            cases hins : insertTaskFirstMatch pid (buildDemoTask i pid now (idGen k)) now
                s.projects with
            | some ps => rw [hins] at hc; simp at hc
            | none =>
              have hiso := insertTaskFirstMatch_isSome pid (buildDemoTask i pid now (idGen k))
                now s.projects
              rw [hins] at hiso
              simpa using hiso.symm
          simp [demoImportTasks, hpid, hc, List.countP_cons, hOk, ih s k]
        | ok pr =>
          obtain ⟨t, s1⟩ := pr
          have hOk : demoImportOk s i = true := by
            unfold demoImportOk
            rw [hpid]
            show (s.projects.any fun p => p.id == pid) = true
            simp only [demoCreateTask, hpid] at hc
            cases hins : insertTaskFirstMatch pid (buildDemoTask i pid now (idGen k)) now
                s.projects with
            | none => rw [hins] at hc; simp at hc
            | some ps =>
              have hiso := insertTaskFirstMatch_isSome pid (buildDemoTask i pid now (idGen k))
                now s.projects
              rw [hins] at hiso
              simpa using hiso.symm
          have hids := demoCreateTask_ids i s now (idGen k) t s1 hc
          have hcong : rest.countP (demoImportOk s1) = rest.countP (demoImportOk s) :=
            List.countP_congr fun a _ => by rw [demoImportOk_congr s s1 hids a]
          simp [demoImportTasks, hpid, hc, List.countP_cons, hOk, ih s1 (k + 1), hcong]
  · intro uid idGen logId now inputs db e h
    cases uid with
    | none => rfl
    | some u =>
      by_cases hall : supaInsertAllOk u inputs (buildSupaImportRows idGen now inputs 0)
          db.projects = true
      · simp only [supabaseImportTasks, if_pos hall] at h
        simp at h
      · simp only [supabaseImportTasks, if_neg hall]
  · intro uid idGen logId now inputs db ts h
    cases uid with
    | none =>
      simp only [supabaseImportTasks] at h
      simp at h
    | some u =>
      by_cases hall : supaInsertAllOk u inputs (buildSupaImportRows idGen now inputs 0)
          db.projects = true
      · simp only [supabaseImportTasks, if_pos hall] at h ⊢
        have hts : buildSupaImportRows idGen now inputs 0 = ts := by
          simpa using h
        constructor
        · rw [← hts]
          cases hrows : buildSupaImportRows idGen now inputs 0 with
          | nil => simp [hrows]
          | cons r rs =>
            simp only [hrows]
            split <;> simp [hrows]
        · rw [← hts]
          exact buildSupaImportRows_length idGen now inputs 0
      · simp only [supabaseImportTasks, if_neg hall] at h
        simp at h

/-- Claim C6 witness: the five-spec bulk import whose third item is invalid —
the demo variant creates exactly 4 tasks, the managed-backend variant fails
and leaves the database unchanged. -/
theorem claim_C6_witness :
    (demoImportTasks exIdGen 9 exImports exState 0).1.length = 4 ∧
    (supabaseImportTasks (some "u1") exIdGen "lg" 9 exImports exDb).2 = exDb := by
  constructor
  · rw [claim_C6.1 exIdGen 9 exImports exState 0]
    rfl
  · exact claim_C6.2.1 (some "u1") exIdGen "lg" 9 exImports exDb "insert failed" (by rfl)

/-- any over a conjunction of predicates implies any over the left one. -/
theorem any_and_left {α : Type} (f g : α → Bool) (l : List α)
    (h : l.any (fun a => f a && g a) = true) : l.any f = true := by
  obtain ⟨x, hx, hfg⟩ := List.any_eq_true.mp h
  rw [Bool.and_eq_true] at hfg
  exact List.any_eq_true.mpr ⟨x, hx, hfg.1⟩

/-- activityInsert appends the entry when the policy and both foreign keys
hold. -/
theorem activityInsert_append (u : String) (e : ActivityEntry) (db : SupaDb)
    (hpolicy : activity_insert_policy u e db.projects = true)
    (hproj : db.projects.any (fun p => p.id == e.project_id) = true)
    (htask : (match e.task_id with
              | none => true
              | some tid => db.tasks.any (fun t => t.id == tid)) = true) :
    activityInsert u e db = { db with activity := db.activity ++ [e] } := by
  unfold activityInsert
  rw [if_pos (by rw [hpolicy, hproj, htask]; rfl)]

/-- The activity list after a landing activityInsert. -/
theorem activityInsert_activity (u : String) (e : ActivityEntry) (db : SupaDb)
    (hpolicy : activity_insert_policy u e db.projects = true)
    (hproj : db.projects.any (fun p => p.id == e.project_id) = true)
    (htask : (match e.task_id with
              | none => true
              | some tid => db.tasks.any (fun t => t.id == tid)) = true) :
    (activityInsert u e db).activity = db.activity ++ [e] := by
  rw [activityInsert_append u e db hpolicy hproj htask]

/-- activityInsert drops the entry when the INSERT policy fails. -/
theorem activityInsert_dropped_policy (u : String) (e : ActivityEntry) (db : SupaDb)
    (hpolicy : activity_insert_policy u e db.projects = false) :
    activityInsert u e db = db := by
  unfold activityInsert
  rw [if_neg (by simp [hpolicy])]

/-- activityInsert drops the entry when its task reference resolves to no
task row. -/
theorem activityInsert_dropped_task (u : String) (e : ActivityEntry) (tid : String)
    (db : SupaDb) (he : e.task_id = some tid)
    (htask : db.tasks.any (fun t => t.id == tid) = false) :
    activityInsert u e db = db := by
  unfold activityInsert
  rw [if_neg (by simp [he, htask])]

/-- activityInsert never touches the tasks table. -/
theorem activityInsert_tasks (u : String) (e : ActivityEntry) (db : SupaDb) :
    (activityInsert u e db).tasks = db.tasks := by
  unfold activityInsert
  split <;> rfl

/-- After the project cascade no row grants access to the deleted project. -/
theorem can_access_after_cascade (u pid : String) (db : SupaDb) :
    can_access_project u pid (deleteProjectCascade pid db).projects = false := by
  show can_access_project u pid (db.projects.filter (fun p => p.id != pid)) = false
  unfold can_access_project
  rw [List.any_filter]
  cases hr : db.projects.any (fun a =>
      (a.id != pid) && (a.id == pid && (a.created_by == some u
        || a.team_members.contains u))) with
  | false => rfl
  | true =>
    obtain ⟨p, _, hp⟩ := List.any_eq_true.mp hr
    rw [Bool.and_eq_true] at hp
    have h1 := hp.1
    have h2 := hp.2
    rw [Bool.and_eq_true] at h2
    simp [bne, h2.1] at h1

/-- updateTaskRowFirstMatch splits the task table at the first visible
matching row and replaces it with the merged row. -/
theorem updateTaskRowFirstMatch_spec (usr tid : String) (u : TaskUpdate) (now : Int)
    (projs : List ProjectRow) :
    ∀ (ts : List Task) (t2 : Task) (ts2 : List Task),
    updateTaskRowFirstMatch usr tid u now projs ts = some (t2, ts2) →
    ∃ l1 t l2, ts = l1 ++ t :: l2 ∧
      (t.id == tid && tasks_update_using usr t projs) = true ∧
      t2 = applyTaskUpdate t u now ∧ ts2 = l1 ++ t2 :: l2 := by
  intro ts
  induction ts with
  | nil => intro t2 ts2 h; simp [updateTaskRowFirstMatch] at h
  | cons x xs ih =>
    intro t2 ts2 h
    cases hx : (x.id == tid && tasks_update_using usr x projs) with
    | true =>
      simp [updateTaskRowFirstMatch, hx] at h
      refine ⟨[], x, xs, rfl, hx, h.1.symm, ?_⟩
      rw [← h.2, h.1]
      simp
    | false =>
      simp only [updateTaskRowFirstMatch, hx, Bool.false_eq_true, if_neg] at h
      cases hrec : updateTaskRowFirstMatch usr tid u now projs xs with
      | none => rw [hrec] at h; simp at h
      | some pr =>
        obtain ⟨t0, rest⟩ := pr
        rw [hrec] at h
        simp at h
        obtain ⟨l1, t, l2, e1, e2, e3, e4⟩ := ih t0 rest hrec
        refine ⟨x :: l1, t, l2, by simp [e1], e2, by rw [← h.1]; exact e3, ?_⟩
        rw [← h.2, e4, h.1]
        simp

/-- updateProjectRowFirstMatch splits the project table at the first visible
matching row and replaces it with the merged row. -/
theorem updateProjectRowFirstMatch_spec (usr pid : String) (u : ProjectUpdate) (now : Int) :
    ∀ (ps : List ProjectRow) (p2 : ProjectRow) (ps2 : List ProjectRow),
    updateProjectRowFirstMatch usr pid u now ps = some (p2, ps2) →
    ∃ l1 p l2, ps = l1 ++ p :: l2 ∧
      (p.id == pid && projects_update_using usr p) = true ∧
      p2 = applyProjectRowUpdate p u now ∧ ps2 = l1 ++ p2 :: l2 := by
  intro ps
  induction ps with
  | nil => intro p2 ps2 h; simp [updateProjectRowFirstMatch] at h
  | cons x xs ih =>
    intro p2 ps2 h
    cases hx : (x.id == pid && projects_update_using usr x) with
    | true =>
      simp [updateProjectRowFirstMatch, hx] at h
      refine ⟨[], x, xs, rfl, hx, h.1.symm, ?_⟩
      rw [← h.2, h.1]
      simp
    | false =>
      simp only [updateProjectRowFirstMatch, hx, Bool.false_eq_true, if_neg] at h
      cases hrec : updateProjectRowFirstMatch usr pid u now xs with
      | none => rw [hrec] at h; simp at h
      | some pr =>
        obtain ⟨p0, rest⟩ := pr
        rw [hrec] at h
        simp at h
        obtain ⟨l1, p, l2, e1, e2, e3, e4⟩ := ih p0 rest hrec
        refine ⟨x :: l1, p, l2, by simp [e1], e2, by rw [← h.1]; exact e3, ?_⟩
        rw [← h.2, e4, h.1]
        simp

/-- Claim C7, counterexample to the claim as stated: a successful demo-mode
task creation appends no ActivityLog entry at all (taskService.logActivity
returns immediately when the managed backend is not configured), so not every
successful mutating service call appends exactly one entry. -/
theorem claim_C7_counterexample :
    demoCreateTask exGoodInput exState 9 "tN" = Except.ok (exNewTask, exStateAfterCreate) ∧
    exStateAfterCreate.activity.length = exState.activity.length := by
  exact ⟨rfl, rfl⟩

/-- Claim C7 (amended): activity logging is per-variant and per-operation —
demo/local project-level mutations (create, update, delete of an existing
project) each append exactly one entry naming the action and the acting
principal demo_user, while demo task-level mutations append none (logging is
skipped without the managed backend); managed-backend create and update of
projects and tasks each append exactly one entry naming the action and the
authenticated principal, while managed-backend deletes append none (the
entry is inserted after the delete, so its project/task reference fails the
foreign key or row-level security check and the unchecked insert is
dropped); the raw-SQL variant performs no activity logging at all. -/
theorem claim_C7 :
    (∀ (input : ProjectInsertInput) (s : DemoState) (now : Int) (fid flid : String),
      ∃ e, (demoCreateProject input s now fid flid).2.activity = e :: s.activity ∧
        e.action = "project_created" ∧ e.user_id = some "demo_user" ∧ e.project_id = fid) ∧
    (∀ (pid : String) (u : ProjectUpdate) (s : DemoState) (now : Int) (flid : String)
        (p2 : Project) (s2 : DemoState),
      demoUpdateProject pid u s now flid = Except.ok (p2, s2) →
      ∃ e, s2.activity = e :: s.activity ∧ e.action = "project_updated" ∧
        e.user_id = some "demo_user") ∧
    (∀ (pid : String) (s : DemoState) (now : Int) (flid : String),
      s.projects.any (fun p => p.id == pid) = true →
      ∃ e, (demoDeleteProject pid s now flid).activity = e :: s.activity ∧
        e.action = "project_deleted" ∧ e.user_id = some "demo_user") ∧
    (∀ (input : TaskInsertInput) (s : DemoState) (now : Int) (fid : String) (t : Task)
        (s2 : DemoState),
      demoCreateTask input s now fid = Except.ok (t, s2) → s2.activity = s.activity) ∧
    (∀ (tid pid : String) (u : TaskUpdate) (s : DemoState) (now : Int) (t : Task)
        (s2 : DemoState),
      demoUpdateTask tid pid u s now = Except.ok (t, s2) → s2.activity = s.activity) ∧
    (∀ (tid pid : String) (s s2 : DemoState),
      demoDeleteTask tid pid s = Except.ok s2 → s2.activity = s.activity) ∧
    (∀ (u : String) (input : ProjectInsertInput) (db : SupaDb) (now : Int) (fid flid : String)
        (r : ProjectRow) (db2 : SupaDb),
      supabaseCreateProject (some u) input db now fid flid = Except.ok (r, db2) →
      ∃ e, db2.activity = db.activity ++ [e] ∧ e.action = "project_created" ∧
        e.user_id = some u) ∧
    (∀ (u pid : String) (pu : ProjectUpdate) (db : SupaDb) (now : Int) (flid : String)
        (r : ProjectRow) (db2 : SupaDb),
      supabaseUpdateProject (some u) pid pu db now flid = Except.ok (r, db2) →
      ∃ e, db2.activity = db.activity ++ [e] ∧ e.action = "project_updated" ∧
        e.user_id = some u) ∧
    (∀ (u pid : String) (db : SupaDb) (now : Int) (flid : String) (db2 : SupaDb),
      supabaseDeleteProject (some u) pid db now flid = Except.ok db2 →
      db2 = deleteProjectCascade pid db ∨ db2 = db) ∧
    (∀ (u : String) (input : TaskInsertInput) (db : SupaDb) (now : Int) (fid flid : String)
        (t : Task) (db2 : SupaDb),
      supabaseCreateTask (some u) input db now fid flid = Except.ok (t, db2) →
      ∃ e, db2.activity = db.activity ++ [e] ∧ e.action = "task_created" ∧
        e.user_id = some u ∧ db2.tasks = db.tasks ++ [t]) ∧
    (∀ (u tid : String) (tu : TaskUpdate) (db : SupaDb) (now : Int) (flid : String)
        (t : Task) (db2 : SupaDb),
      supabaseUpdateTask (some u) tid tu db now flid = Except.ok (t, db2) →
      ∃ e, db2.activity = db.activity ++ [e] ∧ e.action = "task_updated" ∧
        e.user_id = some u) ∧
    (∀ (u tid pid : String) (db : SupaDb) (now : Int) (flid : String) (db2 : SupaDb),
      supabaseDeleteTask (some u) tid pid db now flid = Except.ok db2 →
      db2.tasks.all (fun t => t.id != tid) = true →
      db2.activity.length = db.activity.length) ∧
    (∀ (input : ProjectInsertInput) (db : SupaDb) (now : Int) (fid : String),
      (sqlserverCreateProjectState input db now fid).2.activity = db.activity) := by
  refine ⟨?_, ?_, ?_, ?_, ?_, ?_, ?_, ?_, ?_, ?_, ?_, ?_, ?_⟩
  · intro input s now fid flid
    exact ⟨demoLogEntry flid fid none "demo_user" "project_created"
      [("project_name", input.name)] now, rfl, rfl, rfl, rfl⟩
  · intro pid u s now flid p2 s2 h
    cases hm : updateProjectFirstMatch pid u now s.projects with
    | none => simp [demoUpdateProject, hm] at h
    | some pr =>
      obtain ⟨p3, ps⟩ := pr
      simp only [demoUpdateProject, hm] at h
      simp at h
      refine ⟨demoLogEntry flid pid none "demo_user" "project_updated"
        [("last_modified", toString now)] now, ?_, rfl, rfl⟩
      rw [← h.2]
  · intro pid s now flid h
    unfold demoDeleteProject
    rw [if_pos h]
    exact ⟨demoLogEntry flid pid none "demo_user" "project_deleted"
      [("project_id", pid)] now, rfl, rfl, rfl⟩
  · intro input s now fid t s2 h
    cases hpid : input.project_id with
    | none => simp [demoCreateTask, hpid] at h
    | some pid =>
      simp only [demoCreateTask, hpid] at h
      cases hins : insertTaskFirstMatch pid (buildDemoTask input pid now fid) now s.projects with
      | none => rw [hins] at h; simp at h
      | some ps =>
        rw [hins] at h
        simp at h
        rw [← h.2]
  · intro tid pid u s now t s2 h
    obtain ⟨_, _, _, _, _, _, _, _, _, _, _, _, e7⟩ :=
      demoUpdateTask_spec tid pid u now s t s2 h
    rw [e7]
  · intro tid pid s s2 h
    unfold demoDeleteTask at h
    cases hdel : deleteTaskFirstProject tid pid s.projects with
    | none => rw [hdel] at h; simp at h
    | some ps =>
      rw [hdel] at h
      simp at h
      rw [← h]
  · intro u input db now fid flid r db2 h
    simp only [supabaseCreateProject] at h
    rw [if_pos (by simp [projects_insert_policy])] at h
    simp at h
    refine ⟨demoLogEntry flid fid none u "project_created"
      [("project_name", input.name)] now, ?_, rfl, rfl⟩
    rw [← h.2]
    exact activityInsert_activity u
      (demoLogEntry flid fid none u "project_created" [("project_name", input.name)] now)
      { projects := db.projects ++
          [{ id := fid, name := input.name, description := input.description,
             status := input.status.getD ProjectStatus.active, created_date := now,
             last_modified := now, created_by := some u,
             team_members := input.team_members.getD [] }]
        tasks := db.tasks
        activity := db.activity }
      (by simp [activity_insert_policy, demoLogEntry, can_access_project, List.any_append])
      (by simp [demoLogEntry, List.any_append])
      (by rfl)
  · intro u pid pu db now flid r db2 h
    cases hm : updateProjectRowFirstMatch u pid pu now db.projects with
    | none => simp [supabaseUpdateProject, hm] at h
    | some pr =>
      obtain ⟨p2, ps⟩ := pr
      simp only [supabaseUpdateProject, hm] at h
      by_cases hc : projects_update_check u p2 = true
      · rw [if_pos hc] at h
        simp at h
        obtain ⟨l1, p, l2, e1, e2, e3, e4⟩ :=
          updateProjectRowFirstMatch_spec u pid pu now db.projects p2 ps hm
        have hpid2 : (p2.id == pid) = true := by
          rw [e3]
          show (p.id == pid) = true
          rw [Bool.and_eq_true] at e2
          exact e2.1
        have hown : (p2.created_by == some u || p2.team_members.contains u) = true := hc
        refine ⟨demoLogEntry flid pid none u "project_updated"
          [("last_modified", toString now)] now, ?_, rfl, rfl⟩
        rw [← h.2]
        exact activityInsert_activity u
          (demoLogEntry flid pid none u "project_updated"
            [("last_modified", toString now)] now)
          { projects := ps, tasks := db.tasks, activity := db.activity }
          (by
            simp [activity_insert_policy, demoLogEntry, can_access_project, e4,
              List.any_append, List.any_cons, hpid2]
            exact Or.inr (Or.inl (by simpa using hown)))
          (by simp [demoLogEntry, e4, List.any_append, List.any_cons, hpid2])
          (by rfl)
      · rw [if_neg hc] at h
        simp at h
  · intro u pid db now flid db2 h
    simp only [supabaseDeleteProject] at h
    by_cases hc : db.projects.any (fun p => p.id == pid && projects_delete_policy u p) = true
    · rw [if_pos hc] at h
      simp at h
      left
      rw [← h]
      unfold activityInsert
      split
      · rename_i hcond
        rw [Bool.and_eq_true, Bool.and_eq_true] at hcond
        have hpo := hcond.1.1
        simp only [activity_insert_policy, demoLogEntry] at hpo
        rw [Bool.and_eq_true] at hpo
        rw [can_access_after_cascade u pid db] at hpo
        exact absurd hpo.2 (by simp)
      · rfl
    · rw [if_neg hc] at h
      simp at h
      right
      rw [← h]
      unfold activityInsert
      split
      · rename_i hcond
        rw [Bool.and_eq_true, Bool.and_eq_true] at hcond
        have hpo := hcond.1.1
        simp only [activity_insert_policy, demoLogEntry] at hpo
        rw [Bool.and_eq_true] at hpo
        exact absurd (show db.projects.any
          (fun p => p.id == pid && projects_delete_policy u p) = true from hpo.2) hc
      · rfl
  · intro u input db now fid flid t db2 h
    simp only [supabaseCreateTask] at h
    by_cases hc : (tasks_insert_policy u (prepareSupaTaskRow input now fid (input.name.getD ""))
        db.projects && taskRowCheckOk (prepareSupaTaskRow input now fid (input.name.getD ""))
        db.projects && input.project_id.isSome) = true
    · rw [if_pos hc] at h
      simp at h
      have hpol : can_access_project u
          (prepareSupaTaskRow input now fid (input.name.getD "")).project_id
          db.projects = true := by
        rw [Bool.and_eq_true, Bool.and_eq_true] at hc
        exact hc.1.1
      refine ⟨demoLogEntry flid (prepareSupaTaskRow input now fid (input.name.getD "")).project_id
        (some fid) u "task_created"
        [("task_name", (prepareSupaTaskRow input now fid (input.name.getD "")).name)] now,
        ?_, rfl, rfl, ?_⟩
      · rw [← h.2]
        exact activityInsert_activity u
          (demoLogEntry flid (prepareSupaTaskRow input now fid (input.name.getD "")).project_id
            (some fid) u "task_created"
            [("task_name", (prepareSupaTaskRow input now fid (input.name.getD "")).name)] now)
          { projects := db.projects
            tasks := db.tasks ++ [prepareSupaTaskRow input now fid (input.name.getD "")]
            activity := db.activity }
          (by simp [activity_insert_policy, demoLogEntry, hpol])
          (by
            have hpol2 : db.projects.any (fun p =>
                (p.id == (prepareSupaTaskRow input now fid (input.name.getD "")).project_id)
                && (p.created_by == some u || p.team_members.contains u)) = true := hpol
            have := any_and_left _ _ db.projects hpol2
            simpa [demoLogEntry] using this)
          (by simp [demoLogEntry, prepareSupaTaskRow, List.any_append])
      · rw [← h.2, ← h.1, activityInsert_tasks]
    · rw [if_neg hc] at h
      simp at h
  · intro u tid tu db now flid t db2 h
    cases hm : updateTaskRowFirstMatch u tid tu now db.projects db.tasks with
    | none => simp [supabaseUpdateTask, hm] at h
    | some pr =>
      obtain ⟨t2, ts⟩ := pr
      simp only [supabaseUpdateTask, hm] at h
      by_cases hc : (tasks_update_check u t2 db.projects && taskRowCheckOk t2 db.projects) = true
      · rw [if_pos hc] at h
        simp at h
        have hc2 := hc
        rw [Bool.and_eq_true] at hc2
        have hcc : can_access_project u t2.project_id db.projects = true := hc2.1
        obtain ⟨l1, t3, l2, e1, e2, e3, e4⟩ :=
          updateTaskRowFirstMatch_spec u tid tu now db.projects db.tasks t2 ts hm
        have ht2id : (t2.id == tid) = true := by
          rw [e3]
          show (t3.id == tid) = true
          rw [Bool.and_eq_true] at e2
          exact e2.1
        refine ⟨demoLogEntry flid t2.project_id (some tid) u "task_updated"
          [("task_id", tid)] now, ?_, rfl, rfl⟩
        rw [← h.2]
        exact activityInsert_activity u
          (demoLogEntry flid t2.project_id (some tid) u "task_updated" [("task_id", tid)] now)
          { projects := db.projects, tasks := ts, activity := db.activity }
          (by simp [activity_insert_policy, demoLogEntry, hcc])
          (by
            have hcc2 : db.projects.any (fun p => (p.id == t2.project_id)
                && (p.created_by == some u || p.team_members.contains u)) = true := hcc
            have := any_and_left _ _ db.projects hcc2
            simpa [demoLogEntry] using this)
          (by simp [demoLogEntry, e4, List.any_append, List.any_cons, ht2id])
      · rw [if_neg hc] at h
        simp at h
  · intro u tid pid db now flid db2 h hall
    simp only [supabaseDeleteTask] at h
    simp at h
    have hany : db2.tasks.any (fun t => t.id == tid) = false := by
      cases hx : db2.tasks.any (fun t => t.id == tid) with
      | false => rfl
      | true =>
        obtain ⟨t, ht, he⟩ := List.any_eq_true.mp hx
        have hz := List.all_eq_true.mp hall t ht
        simp [bne, he] at hz
    rw [← h]
    unfold activityInsert
    split
    · rename_i hcond
      exfalso
      rw [Bool.and_eq_true, Bool.and_eq_true] at hcond
      have htk := hcond.2
      simp only [demoLogEntry] at htk
      have h3 := congrArg SupaDb.tasks h
      rw [activityInsert_tasks] at h3
      dsimp only at h3
      rw [h3] at htk
      rw [hany] at htk
      exact absurd htk (by simp)
    · simp
  · intro input db now fid
    rfl

/-- Claim C7 witness: the demo task creation appends no entry, the
managed-backend task creation appends exactly one, and the managed-backend
project deletion leaves only the cascade (no appended entry). -/
theorem claim_C7_witness :
    exStateAfterCreate.activity = exState.activity ∧
    (∃ e, exDb9.activity = exDb.activity ++ [e] ∧ e.action = "task_created" ∧
      e.user_id = some "u1" ∧ exDb9.tasks = exDb.tasks ++ [exRow9]) ∧
    (exDbAfterDel = deleteProjectCascade "p1" exDb ∨ exDbAfterDel = exDb) := by
  refine ⟨?_, ?_, ?_⟩
  · exact claim_C7.2.2.2.1 exGoodInput exState 9 "tN" exNewTask exStateAfterCreate rfl
  · exact claim_C7.2.2.2.2.2.2.2.2.2.1 "u1" exGoodInput exDb 9 "t9" "l9" exRow9 exDb9 (by rfl)
  · exact claim_C7.2.2.2.2.2.2.2.2.1 "u1" "p1" exDb 7 "ld" exDbAfterDel (by rfl)

/-- deleteTaskFirstProject finds nothing when every project either has a
different id or contains no task with the target id. -/
theorem deleteTaskFirstProject_none (tid pid : String) :
    ∀ (ps : List Project),
      ps.all (fun p => p.id != pid || p.tasks.all (fun t => t.id != tid)) = true →
      deleteTaskFirstProject tid pid ps = none := by
  intro ps
  induction ps with
  | nil => intro _; rfl
  | cons p rest ih =>
    intro h
    have hp := (List.all_eq_true.mp h) p (by simp)
    have hrest : rest.all (fun p => p.id != pid || p.tasks.all (fun t => t.id != tid)) = true :=
      List.all_eq_true.mpr fun x hx => List.all_eq_true.mp h x (by simp [hx])
    cases hid : p.id == pid with
    | false => simp [deleteTaskFirstProject, hid, ih hrest]
    | true =>
      have htasks : p.tasks.all (fun t => t.id != tid) = true := by
        simpa [bne, hid] using hp
      have hany : p.tasks.any (fun t => t.id == tid) = false := by
        cases hny : p.tasks.any (fun t => t.id == tid) with
        | false => rfl
        | true =>
          obtain ⟨t, ht, he⟩ := List.any_eq_true.mp hny
          have hx := List.all_eq_true.mp htasks t ht
          simp [bne, he] at hx
      simp [deleteTaskFirstProject, hid, hany]

/-- Claim C10: demo deleteProject with an unknown id resolves successfully
and leaves the state unchanged, deleting twice equals deleting once, and demo
deleteTask with an unknown task raises "Task not found". -/
theorem claim_C10 :
    (∀ (s : DemoState) (pid : String) (now : Int) (flid : String),
      s.projects.all (fun p => p.id != pid) = true →
      demoDeleteProject pid s now flid = s) ∧
    (∀ (s : DemoState) (pid : String) (n1 : Int) (f1 : String) (n2 : Int) (f2 : String),
      demoDeleteProject pid (demoDeleteProject pid s n1 f1) n2 f2
        = demoDeleteProject pid s n1 f1) ∧
    (∀ (tid pid : String) (s : DemoState),
      s.projects.all (fun p => p.id != pid || p.tasks.all (fun t => t.id != tid)) = true →
      demoDeleteTask tid pid s = Except.error "Task not found") := by
  refine ⟨?_, ?_, ?_⟩
  · intro s pid now flid h
    have hno : ¬ s.projects.any (fun p => p.id == pid) = true := by
      intro hc
      obtain ⟨p, hpm, he⟩ := List.any_eq_true.mp hc
      have hx := List.all_eq_true.mp h p hpm
      simp [bne, he] at hx
    unfold demoDeleteProject
    rw [if_neg hno]
  · intro s pid n1 f1 n2 f2
    by_cases h : s.projects.any (fun p => p.id == pid) = true
    · have hfa : (s.projects.filter (fun p => p.id != pid)).any (fun p => p.id == pid)
          = false := by
        rw [List.any_filter]
        cases hr : s.projects.any fun a => (a.id != pid) && (a.id == pid) with
        | false => rfl
        | true =>
          obtain ⟨p, _, he⟩ := List.any_eq_true.mp hr
          rw [Bool.and_eq_true] at he
          simp [bne, he.2] at he
      have h1 : demoDeleteProject pid s n1 f1 =
          { projects := s.projects.filter (fun p => p.id != pid)
            activity := demoLogEntry f1 pid none "demo_user" "project_deleted"
              [("project_id", pid)] n1 :: s.activity } := by
        unfold demoDeleteProject
        rw [if_pos h]
      rw [h1]
      unfold demoDeleteProject
      rw [if_neg (by simp [hfa])]
    · have h1 : demoDeleteProject pid s n1 f1 = s := by
        unfold demoDeleteProject; rw [if_neg h]
      have h2 : demoDeleteProject pid s n2 f2 = s := by
        unfold demoDeleteProject; rw [if_neg h]
      rw [h1, h2]
  · intro tid pid s h
    unfold demoDeleteTask
    rw [deleteTaskFirstProject_none tid pid s.projects h]

/-- Claim C10 witness: deleting an unknown project id leaves the state
untouched; deleting an unknown task id fails with "Task not found". -/
theorem claim_C10_witness :
    demoDeleteProject "nope" exState 1 "x" = exState ∧
    demoDeleteTask "ghost" "p1" exState = Except.error "Task not found" := by
  constructor
  · exact claim_C10.1 exState "nope" 1 "x" (by rfl)
  · exact claim_C10.2.2 "ghost" "p1" exState (by rfl)

end Mpp
